import Mathlib

/-!
Verification development for pipelinewise-target-redshift.

The Python sources `target_redshift/__init__.py` and `target_redshift/db_sync.py`
are shallowly embedded below:

* Python dicts whose keys are strings are modelled as association lists
  (`aget`/`aset` implement subscript read and write: `aset` replaces the value
  of an existing key in place and appends a new key at the end, exactly like
  CPython's insertion-ordered dicts).
* Python exceptions (`KeyError`, `IndexError`, `AttributeError`, `ValueError`)
  are modelled with `Except String`.
* `copy.deepcopy` is the identity in this pure model.
* Warehouse, S3 and stdout side effects are recorded as explicit event traces;
  record payloads are opaque (`Nat`), since no branch of the orchestration code
  inspects them.
* Bounded `while` loops are written with an explicit fuel argument equal to the
  bound used by the source, keeping every definition structurally recursive
  (hence executable and kernel-reducible).
-/

/-! ## Association lists: the embedding of string-keyed Python dicts -/

/-- Dict subscript read: value of the first (unique) occurrence of key `k`. -/
def aget {β : Type} : List (String × β) → String → Option β
  | [], _ => none
  | (k', v) :: t, k => if k' = k then some v else aget t k

/-- Dict subscript write: replace the value of an existing key in place,
append a fresh key at the end (CPython dict assignment). -/
def aset {β : Type} : List (String × β) → String → β → List (String × β)
  | [], k, v => [(k, v)]
  | (k', v') :: t, k, v => if k' = k then (k, v) :: t else (k', v') :: aset t k v

/-- Dict subscript read that raises `KeyError` when the key is absent. -/
def exceptGet {β : Type} (l : List (String × β)) (k : String) : Except String β :=
  match aget l k with
  | some v => .ok v
  | none => .error ("KeyError: " ++ k)

instance exceptDecEq {ε α : Type} [DecidableEq ε] [DecidableEq α] :
    DecidableEq (Except ε α) := fun a b =>
  match a, b with
  | .ok x, .ok y =>
    if h : x = y then isTrue (by rw [h]) else isFalse (fun hc => by cases hc; exact h rfl)
  | .ok _, .error _ => isFalse (fun hc => by cases hc)
  | .error _, .ok _ => isFalse (fun hc => by cases hc)
  | .error x, .error y =>
    if h : x = y then isTrue (by rw [h]) else isFalse (fun hc => by cases hc; exact h rfl)

/-! ## Python string primitives used by the source -/

/-- Lexicographic (code-point) comparison of char lists: Python string `<=`. -/
def strLeB : List Char → List Char → Bool
  | [], _ => true
  | _ :: _, [] => false
  | a :: as, b :: bs => if a < b then true else if b < a then false else strLeB as bs

/-- Does `text` start with `pat`? -/
def charsStart : List Char → List Char → Bool
  | [], _ => true
  | _ :: _, [] => false
  | p :: ps, t :: ts => if p = t then charsStart ps ts else false

/-- `str.upper()` / `str.lower()` (ASCII case mapping, kernel-reducible). -/
def strUpper (s : String) : String := String.mk (s.data.map Char.toUpper)

def strLower (s : String) : String := String.mk (s.data.map Char.toLower)

/-- Python's `pat in text` on strings: substring containment. -/
def charsContain (text pat : List Char) : Bool :=
  if charsStart pat text then true
  else
    match text with
    | [] => false
    | _ :: ts => charsContain ts pat

/-! ## db_sync.py: JSON schema nodes -/

/-- A JSON schema `type` field: either a bare string or a list of strings. -/
inductive JTy where
  | s (v : String)
  | l (v : List String)
deriving DecidableEq, Repr

/-- A JSON schema node, with exactly the keys db_sync.py reads.
`type = none` models a dict without a `type` key.  `anyOfFirst` models
`list(v.values())[0]` of such a dict: the first value (in insertion order),
which the source indexes with `[0]` and expects to be a list of schema dicts. -/
structure SNode where
  type : Option JTy
  format : Option String
  maxLength : Option Nat
  properties : Option (List (String × SNode))
  anyOfFirst : Option (List SNode)

/-- Python's `x in property_type`: substring test on a string-typed `type`,
membership on a list-typed `type` (db_sync.py uses `in` on both shapes). -/
def hasType : JTy → String → Bool
  | .s v, x => charsContain v.data x.data
  | .l v, x => v.contains x

def DEFAULT_VARCHAR_LENGTH : Nat := 10000
def SHORT_VARCHAR_LENGTH : Nat := 256
def LONG_VARCHAR_LENGTH : Nat := 65535

/-- db_sync.column_type: maps a flattened JSON schema property to a Redshift
column type.  The source reads `schema_property['type']` unconditionally
(`KeyError` when absent); flattened schema entries always carry a type, and an
absent key is modelled as an empty type list. -/
def column_type (schema_property : SNode) (with_length : Bool) : String :=
  let property_type := schema_property.type.getD (JTy.l [])
  let property_format := schema_property.format
  let varchar_length :=
    if schema_property.maxLength.getD 0 > DEFAULT_VARCHAR_LENGTH then LONG_VARCHAR_LENGTH
    else DEFAULT_VARCHAR_LENGTH
  let ct_vl : String × Nat :=
    if hasType property_type "object" || hasType property_type "array" then
      ("character varying", LONG_VARCHAR_LENGTH)
    else if property_format = some "date-time" then
      ("timestamp without time zone", varchar_length)
    else if property_format = some "time" then
      ("character varying", SHORT_VARCHAR_LENGTH)
    else if hasType property_type "number" then
      ("double precision", varchar_length)
    else if hasType property_type "integer" && hasType property_type "string" then
      ("character varying", LONG_VARCHAR_LENGTH)
    else if hasType property_type "integer" then
      ("bigint", varchar_length)
    else if hasType property_type "boolean" then
      ("boolean", varchar_length)
    else
      ("character varying", varchar_length)
  if with_length ∧ ct_vl.1 = "character varying" ∧ ct_vl.2 > 0 then
    ct_vl.1 ++ "(" ++ toString ct_vl.2 ++ ")"
  else ct_vl.1

/-- db_sync.safe_column_name: wrap in double quotes and uppercase. -/
def safe_column_name (name : String) : String :=
  strUpper ("\"" ++ name ++ "\"")

/-- db_sync.column_clause. -/
def column_clause (name : String) (schema_property : SNode) : String :=
  safe_column_name name ++ " " ++ column_type schema_property true

/-! ## db_sync.py: flatten_key -/

/-- `inflection.camelize` (uppercase_first_letter=True): the regex
`re.sub(r"(?:^|_)(.)", upper, s)` scanned left to right; the flag says whether
the scanner sits at the very start of the string (where `^` can match). -/
def camelizeGo : Bool → List Char → List Char
  | _, [] => []
  | true, c :: rest => c.toUpper :: camelizeGo false rest
  | false, '_' :: c :: rest => c.toUpper :: camelizeGo false rest
  | false, ['_'] => ['_']
  | false, c :: rest => c :: camelizeGo false rest

/-- One body iteration of flatten_key's shortening loop:
`(reduced if len(reduced) > 1 else key[0:3]).lower()` where `reduced`
strips the ASCII lowercase letters from the camelized key. -/
def reduceKeyElem (s : String) : String :=
  let reduced := String.mk ((camelizeGo true s.data).filter (fun c => !c.isLower))
  if reduced.length > 1 then strLower reduced
  else strLower (String.mk (s.data.take 3))

/-- flatten_key's `while len(sep.join(inflected_key)) >= 127 and i < len(...)`
loop; the fuel is the list length, which bounds the loop (the index strictly
increases each iteration). -/
def flatten_key_loop (sep : String) : Nat → List String → Nat → List String
  | 0, infl, _ => infl
  | fuel + 1, infl, i =>
    if 127 ≤ (String.intercalate sep infl).length ∧ i < infl.length then
      flatten_key_loop sep fuel (infl.set i (reduceKeyElem (infl.getD i ""))) (i + 1)
    else infl

/-- db_sync.flatten_key. -/
def flatten_key (k : String) (parent_key : List String) (sep : String) : String :=
  let full_key := parent_key ++ [k]
  String.intercalate sep (flatten_key_loop sep full_key.length full_key 0)

/-! ## db_sync.py: flatten_schema -/

/-- Sort order used by `sorted(items, key=lambda item: item[0])`. -/
def pairLe (a b : String × SNode) : Prop := strLeB a.1.data b.1.data = true

instance : DecidableRel pairLe := fun a b =>
  inferInstanceAs (Decidable (strLeB a.1.data b.1.data = true))

/-- First duplicated key among adjacent entries of the sorted item list: the
key on which `itertools.groupby` would produce a group of size > 1. -/
def findAdjDup : List (String × SNode) → Option String
  | [] => none
  | [_] => none
  | a :: b :: t => if a.1 = b.1 then some a.1 else findAdjDup (b :: t)

/-- `list(v.values())[0][0]['type'] = ['null', x]` : the in-place type widening
of the first alternative of an untyped property. -/
def setNodeType (v : SNode) (t : List String) : SNode :=
  { v with type := some (JTy.l t) }

/-- The type of the recursive call available to one level of flatten_schema:
`none` models `level >= max_level` (no recursion allowed). -/
abbrev FlattenRec := SNode → List String → Except String (List (String × SNode))

/-- The loop body of flatten_schema for one property `(k, v)`:
either recurse (object-typed with nested properties, below the max level),
keep the property as a single leaf, or — for a property without a `type` key —
take the first alternative of its first value, widen its type with `'null'`,
and keep that (dropping the property when no case applies). -/
def propContrib (rec : Option FlattenRec) (sep : String) (parent_key : List String)
    (k : String) (v : SNode) : Except String (List (String × SNode)) :=
  let new_key := flatten_key k parent_key sep
  match v.type with
  | some t =>
    match rec, v.properties with
    | some r, some _ =>
      if hasType t "object" then r v (parent_key ++ [k]) else .ok [(new_key, v)]
    | _, _ => .ok [(new_key, v)]
  | none =>
    match v.anyOfFirst with
    | none => .ok []
    | some [] => .error "IndexError: list index out of range"
    | some (alt0 :: _) =>
      match alt0.type with
      | none => .error "KeyError: type"
      | some (JTy.s "string") => .ok [(new_key, setNodeType alt0 ["null", "string"])]
      | some (JTy.s "array") => .ok [(new_key, setNodeType alt0 ["null", "array"])]
      | some (JTy.s "object") => .ok [(new_key, setNodeType alt0 ["null", "object"])]
      | some _ => .ok []

/-- The `for k, v in d['properties'].items()` loop of flatten_schema. -/
def flattenProps (rec : Option FlattenRec) (sep : String) (parent_key : List String) :
    List (String × SNode) → Except String (List (String × SNode))
  | [] => .ok []
  | (k, v) :: rest =>
    match propContrib rec sep parent_key k v with
    | .error e => .error e
    | .ok c =>
      match flattenProps rec sep parent_key rest with
      | .error e => .error e
      | .ok r => .ok (c ++ r)

/-- One level of flatten_schema: collect the items, sort them by key, raise on
a duplicated column name, and return the sorted dict. -/
def flattenStep (rec : Option FlattenRec) (sep : String) (d : SNode)
    (parent_key : List String) : Except String (List (String × SNode)) :=
  match d.properties with
  | none => .ok []
  | some props =>
    match flattenProps rec sep parent_key props with
    | .error e => .error e
    | .ok items =>
      let sorted_items := List.insertionSort pairLe items
      match findAdjDup sorted_items with
      | some dup => .error ("Duplicate column name produced in schema: " ++ dup)
      | none => .ok sorted_items

/-- flatten_schema by remaining depth: the fuel is `max_level - level`, which
is exactly the source's `level < max_level` recursion guard (the recursive call
increments `level` and keeps `max_level`). -/
def flattenFuel (sep : String) : Nat → SNode → List String → Except String (List (String × SNode))
  | 0, d, pk => flattenStep none sep d pk
  | f + 1, d, pk => flattenStep (some (flattenFuel sep f)) sep d pk

/-- db_sync.flatten_schema with the default separator and parent key, called
with `max_level` as DbSync.__init__ does. -/
def flatten_schema (d : SNode) (max_level : Nat) : Except String (List (String × SNode)) :=
  flattenFuel "__" max_level d []

/-! ## db_sync.py: update_columns (column reconciliation) -/

/-- One row of the live-table column listing (information_schema.columns). -/
structure LiveColumn where
  column_name : String
  data_type : String
deriving DecidableEq, Repr

/-- `{column['column_name'].lower(): column for column in columns}`. -/
def columns_dict (columns : List LiveColumn) : List (String × LiveColumn) :=
  columns.foldl (fun acc c => aset acc (strLower c.column_name) c) []

/-- update_columns: the clauses of columns present in the desired flattened
schema but absent from the live table. -/
def columns_to_add (flat : List (String × SNode)) (cdict : List (String × LiveColumn)) :
    List String :=
  flat.filterMap fun kv =>
    if (aget cdict (strLower kv.1)).isNone then some (column_clause kv.1 kv.2) else none

/-- update_columns: the (safe name, clause) pairs of columns present in both
the desired flattened schema and the live table whose warehouse type differs,
except when the desired type is 'timestamp without time zone'. -/
def columns_to_replace (flat : List (String × SNode)) (cdict : List (String × LiveColumn)) :
    List (String × String) :=
  flat.filterMap fun kv =>
    match aget cdict (strLower kv.1) with
    | none => none
    | some col =>
      if strLower col.data_type ≠ strLower (column_type kv.2 false) ∧
          strLower (column_type kv.2 true) ≠ "timestamp without time zone" then
        some (safe_column_name kv.1, column_clause kv.1 kv.2)
      else none

/-- DDL actions issued by update_columns, in order. -/
inductive ColAction where
  | add (clause : String)
  | version (column_name : String)
deriving DecidableEq, Repr

/-- db_sync.update_columns: add the missing columns, then for every column to
replace, rename (version) the old column and re-add it with the desired type. -/
def update_columns (flat : List (String × SNode)) (columns : List LiveColumn) :
    List ColAction :=
  let cdict := columns_dict columns
  (columns_to_add flat cdict).map ColAction.add ++
    (columns_to_replace flat cdict).flatMap (fun nc => [ColAction.version nc.1, ColAction.add nc.2])

/-! ## __init__.py: configuration and tap state -/

def DEFAULT_BATCH_SIZE_ROWS : Nat := 100000
def DEFAULT_PARALLELISM : Nat := 0
def DEFAULT_MAX_PARALLELISM : Nat := 16

/-- The configuration keys persist_lines / flush_streams read.  `Option`
models an absent key (read with `config.get(key, default)`); boolean flags
absorb Python truthiness.  Connection credentials are validated by
DbSync.__init__ against the environment and are outside this model. -/
structure Config where
  batch_size_rows : Option Nat
  parallelism : Option Nat
  max_parallelism : Option Nat
  flush_all_streams : Bool
  hard_delete : Bool
  add_metadata_columns : Bool
  primary_key_required : Option Bool
  data_flattening_max_level : Option Nat
  slices : Option Nat

/-- A Singer tap state: the `bookmarks` key (absent when `none`), mapping
stream ids to opaque bookmark payloads, plus the rest of the dict collapsed
into one opaque component (`copy.deepcopy` is the identity here). -/
structure TapState where
  bookmarks : Option (List (String × Nat))
  rest : Nat
deriving DecidableEq, Repr

/-- Bookmark lookup through an optional `bookmarks` key. -/
def bkm (st : TapState) (stream : String) : Option Nat :=
  aget (st.bookmarks.getD []) stream

/-- Python truthiness of an optional state dict: `None` and the empty dict
(no bookmarks key, empty rest) are falsy. -/
def tapTruthy : Option TapState → Bool
  | none => false
  | some st => !(st.bookmarks.isNone && st.rest == 0)

/-- emit_state: the lines written to stdout (none when the state is `None`). -/
def emit_state : Option TapState → List TapState
  | none => []
  | some st => [st]

/-- Python truthiness of the `filter_streams` argument (`None` and `[]` falsy). -/
def pyTruthyFilter : Option (List String) → Bool
  | none => false
  | some l => !l.isEmpty

/-! ## __init__.py: flush_streams -/

/-- A per-stream record buffer: primary-key string to opaque record payload. -/
abbrev Buf := List (String × Nat)

/-- The `records_to_load` dict: stream to buffer. -/
abbrev StreamsDict := List (String × Buf)

/-- The `row_count` / `total_row_count` dicts. -/
abbrev RowCount := List (String × Nat)

/-- flush_streams lines 291-304: the worker-pool size.  With parallelism 0
(auto) it is the number of keys of the `streams` dict capped at
max_parallelism; otherwise the configured fixed value. -/
def flush_parallelism (config : Config) (streams : StreamsDict) : Nat :=
  let parallelism := config.parallelism.getD DEFAULT_PARALLELISM
  let max_parallelism := config.max_parallelism.getD DEFAULT_MAX_PARALLELISM
  if parallelism = 0 then
    let n_streams_to_flush := streams.length
    if n_streams_to_flush > max_parallelism then max_parallelism else n_streams_to_flush
  else parallelism

/-- load_stream_batch: when the stream's row count is positive, flush its
records (warehouse effects abstracted) and reset the count to zero. -/
def load_stream_batch (stream : String) (row_count : RowCount) : Except String RowCount :=
  match exceptGet row_count stream with
  | .error e => .error e
  | .ok n => .ok (if n > 0 then aset row_count stream 0 else row_count)

/-- The `Parallel()(delayed(load_stream_batch)(...) for stream in streams_to_flush)`
call: each selected stream's buffer is read (`streams[stream]`, KeyError when
absent) and its row count reset. -/
def flushLoadLoop (streams : StreamsDict) : List String → RowCount → Except String RowCount
  | [], row_count => .ok row_count
  | stream :: rest, row_count =>
    match exceptGet streams stream with
    | .error e => .error e
    | .ok _ =>
      match load_stream_batch stream row_count with
      | .error e => .error e
      | .ok row_count' => flushLoadLoop streams rest row_count'

/-- flush_streams lines 326-341: reset each flushed stream's buffer to the
empty dict and update the checkpoint: with a truthy filter, overlay the
stream's bookmark from the latest state when present (`state.get` raises
AttributeError when no state was observed; `'bookmarks' not in flushed_state`
raises TypeError when the previous checkpoint is None); with no filter, the
checkpoint becomes the latest state itself. -/
def flushResetLoop (state : Option TapState) (filterTruthy : Bool) :
    List String → StreamsDict × Option TapState → Except String (StreamsDict × Option TapState)
  | [], acc => .ok acc
  | stream :: rest, (strs, fl) =>
    let strs' := aset strs stream []
    if filterTruthy then
      match state with
      | none => .error "AttributeError: NoneType object has no attribute get"
      | some st =>
        match bkm st stream with
        | none => flushResetLoop state filterTruthy rest (strs', fl)
        | some b =>
          match fl with
          | none => .error "TypeError: argument of type NoneType is not iterable"
          | some f =>
            flushResetLoop state filterTruthy rest
              (strs', some { f with bookmarks := some (aset (f.bookmarks.getD []) stream b) })
    else flushResetLoop state filterTruthy rest (strs', state)

/-- flush_streams lines 306-310: the selected streams (all buffered streams
when the filter is falsy). -/
def streams_to_flush (streams : StreamsDict) (filter_streams : Option (List String)) :
    List String :=
  if pyTruthyFilter filter_streams then filter_streams.getD [] else streams.map Prod.fst

/-- __init__.flush_streams: flush the selected streams (all buffered streams
when the filter is falsy), reset their buffers and counts, and return the
updated buffers, counts and checkpoint. -/
def flush_streams (streams : StreamsDict) (row_count : RowCount) (config : Config)
    (state flushed_state : Option TapState) (filter_streams : Option (List String)) :
    Except String (StreamsDict × RowCount × Option TapState) :=
  let _parallelism := flush_parallelism config streams
  let stf := streams_to_flush streams filter_streams
  match flushLoadLoop streams stf row_count with
  | .error e => .error e
  | .ok row_count' =>
    match flushResetLoop state (pyTruthyFilter filter_streams) stf (streams, flushed_state) with
    | .error e => .error e
    | .ok (streams', flushed') => .ok (streams', row_count', flushed')

/-! ## __init__.py: chunking and flush_records -/

/-- ceiling_division: `-(n // -d)` with Python floor division. -/
def ceiling_division (n d : Int) : Int := -(Int.fdiv n (-d))

/-- chunk_iterable by fuel (the list length bounds the number of chunks when
the size is positive; a zero size yields no chunks, like `islice` with a zero
stop immediately producing the `()` sentinel). -/
def chunkFuel {α : Type} (size : Nat) : Nat → List α → List (List α)
  | _, [] => []
  | 0, _ :: _ => []
  | fuel + 1, a :: as => ((a :: as).take size) :: chunkFuel size fuel ((a :: as).drop size)

/-- __init__.chunk_iterable: successive `size`-sized chunks, last not padded. -/
def chunk_iterable {α : Type} (l : List α) (size : Nat) : List (List α) :=
  if size = 0 then [] else chunkFuel size l.length l

/-- File-system / S3 / warehouse effects of flush_records, in order. -/
inductive FREvent where
  | createLocal (chunk_number : Nat)
  | uploadS3 (chunk_number : Nat)
  | copyLoad
  | removeLocal (chunk_number : Nat)
  | deleteS3 (chunk_number : Nat)
deriving DecidableEq, Repr

/-- __init__.flush_records: chunk the buffered records, write every chunk to a
local temporary file and upload it, then COPY-load into the warehouse, then
remove the local files and finally the uploaded objects.  `load_ok` is the
outcome of the external `load_csv` call; the source has no try/finally, so an
exception there (or the IndexError on `s3_keys[0]` for an empty buffer) aborts
before any cleanup.  Returns the effect trace and the outcome. -/
def flush_records_slices (slices : Option Nat) : Nat :=
  match slices with
  | none => 1
  | some 0 => 1
  | some n => n

/-- The chunks flush_records builds: the buffered records' values, split into
`ceiling_division(N, slices)`-sized pieces. -/
def flush_records_chunks (records_to_load : Buf) (slices : Option Nat) : List (List Nat) :=
  chunk_iterable (records_to_load.map Prod.snd)
    (ceiling_division records_to_load.length (flush_records_slices slices)).toNat

def flush_records (records_to_load : Buf) (slices : Option Nat) (load_ok : Bool) :
    List FREvent × Except String Unit :=
  let n := (flush_records_chunks records_to_load slices).length
  let created := (List.range n).flatMap fun i => [FREvent.createLocal (i + 1), FREvent.uploadS3 (i + 1)]
  if n = 0 then (created, .error "IndexError: list index out of range")
  else if load_ok then
    (created ++ [FREvent.copyLoad] ++ (List.range n).map (fun i => FREvent.removeLocal (i + 1))
      ++ (List.range n).map (fun i => FREvent.deleteS3 (i + 1)), .ok ())
  else (created, .error "psycopg2 error in load_csv")

/-! ## __init__.py: persist_lines -/

/-- A Singer message, after json parsing and the `type`/`stream` checks.
The record's primary-key string (a DbSync method over the live schema) is
carried on the message, the empty string standing for a falsy result (no key
properties, or an empty key).  Record payloads are opaque. -/
inductive Msg where
  | record (stream : String) (pkRaw : String) (payload : Nat)
  | schema (stream : String) (sch : SNode) (key_properties : List String)
  | state (value : TapState)
  | activateVersion

def Msg.isState : Msg → Bool
  | .state _ => true
  | _ => false

/-- Ordered observable actions of the message loop: a flush of the named
streams, an emit_state call, binding a fresh DbSync for a stream, the schema
DDL (create_schema_if_not_exists + sync_table), and the row-counter reset. -/
inductive Event where
  | flushedStreams (streams : List String)
  | emittedState (st : Option TapState)
  | boundSync (stream : String)
  | schemaDdl (stream : String)
  | countersReset (stream : String)
deriving DecidableEq, Repr

/-- The loop state of persist_lines, plus the emit trace (actual stdout
lines) and the ordered event trace. -/
structure LoaderState where
  state : Option TapState
  flushed_state : Option TapState
  schemas : List String
  records_to_load : StreamsDict
  row_count : RowCount
  total_row_count : RowCount
  emitted : List TapState
  events : List Event
deriving DecidableEq, Repr

def initLoader : LoaderState :=
  { state := none
    flushed_state := none
    schemas := []
    records_to_load := []
    row_count := []
    total_row_count := []
    emitted := []
    events := [] }

/-- add_metadata_columns_to_schema: add the three `_sdc` properties to the
schema message's properties (subscripted directly in the source; an absent
properties key is modelled as empty). -/
def add_metadata_columns_to_schema (sch : SNode) : SNode :=
  let props := sch.properties.getD []
  let p1 := aset props "_sdc_extracted_at"
    ⟨some (JTy.l ["null", "string"]), some "date-time", none, none, none⟩
  let p2 := aset p1 "_sdc_batched_at"
    ⟨some (JTy.l ["null", "string"]), some "date-time", none, none, none⟩
  let p3 := aset p2 "_sdc_deleted_at"
    ⟨some (JTy.l ["null", "string"]), none, none, none, none⟩
  { sch with properties := some p3 }

/-- The RECORD branch of the persist_lines loop (lines 140-198): compute the
primary-key string, buffer the record (last write wins per key), bump the
counters only for a fresh key, and flush (with a one-stream filter unless
flush_all_streams is configured) once the stream's batch is full, emitting the
resulting checkpoint. -/
def stepRecordCore (config : Config) (s : LoaderState) (stream : String) (pkRaw : String)
    (payload : Nat) (tot rcv : Nat) : LoaderState × Option String :=
  let primary_key_string := if pkRaw = "" then "RID-" ++ toString tot else pkRaw
  let records0 :=
    if (aget s.records_to_load stream).isSome then s.records_to_load
    else aset s.records_to_load stream []
  let buf := (aget records0 stream).getD []
  let isNew := (aget buf primary_key_string).isNone
  let row_count' := if isNew then aset s.row_count stream (rcv + 1) else s.row_count
  let total' := if isNew then aset s.total_row_count stream (tot + 1) else s.total_row_count
  let records' := aset records0 stream (aset buf primary_key_string payload)
  let rcv' := if isNew then rcv + 1 else rcv
  if rcv' ≥ config.batch_size_rows.getD DEFAULT_BATCH_SIZE_ROWS then
    let filter := if config.flush_all_streams then none else some [stream]
    match flush_streams records' row_count' config s.state s.flushed_state filter with
    | .error e => (s, some e)
    | .ok (records2, rc2, fl') =>
      let stf := streams_to_flush records' filter
      ({ s with
          records_to_load := records2
          row_count := rc2
          total_row_count := total'
          flushed_state := fl'
          events := s.events ++ [.flushedStreams stf, .emittedState fl']
          emitted := s.emitted ++ emit_state fl' }, none)
  else
    ({ s with
        records_to_load := records'
        row_count := row_count'
        total_row_count := total' }, none)

/-- The RECORD branch entry: the stream must have a schema, and both counter
dicts are subscripted with the stream (KeyError when absent). -/
def stepRecord (config : Config) (s : LoaderState) (stream : String) (pkRaw : String)
    (payload : Nat) : LoaderState × Option String :=
    if stream ∉ s.schemas then
      (s, some ("A record for stream " ++ stream ++ " was encountered before a corresponding schema"))
    else
      match aget s.total_row_count stream with
      | none => (s, some ("KeyError: " ++ stream))
      | some tot =>
        match aget s.row_count stream with
        | none => (s, some ("KeyError: " ++ stream))
        | some rcv => stepRecordCore config s stream pkRaw payload tot rcv

/-- The SCHEMA branch tail (lines 218-245): require key_properties, bind the
fresh DbSync (whose construction flattens the schema and can raise), run the
schema DDL, and reset the stream's counters. -/
def stepSchemaTail (config : Config) (s1 : LoaderState) (stream : String) (sch : SNode)
    (key_properties : List String) : LoaderState × Option String :=
  if (config.primary_key_required.getD true) ∧ key_properties = [] then
    (s1, some "key_properties field is required")
  else
    let schemaUsed :=
      if config.add_metadata_columns || config.hard_delete then add_metadata_columns_to_schema sch
      else sch
    match flatten_schema schemaUsed (config.data_flattening_max_level.getD 0) with
    | .error e => (s1, some e)
    | .ok _flat =>
      ({ s1 with
          events := s1.events ++ [.boundSync stream, .schemaDdl stream, .countersReset stream]
          row_count := aset s1.row_count stream 0
          total_row_count := aset s1.total_row_count stream 0 }, none)

/-- The SCHEMA branch head: record the stream's schema as seen, and when the
stream already has buffered rows, flush every buffered stream (no filter) and
emit the checkpoint before the tail runs. -/
def stepSchema (config : Config) (s : LoaderState) (stream : String) (sch : SNode)
    (key_properties : List String) : LoaderState × Option String :=
    let schemas' := if stream ∈ s.schemas then s.schemas else s.schemas ++ [stream]
    let s0 := { s with schemas := schemas' }
    if (aget s.row_count stream).getD 0 > 0 then
      match flush_streams s.records_to_load s.row_count config s.state s.flushed_state none with
      | .error e => (s0, some e)
      | .ok (records2, rc2, fl') =>
        stepSchemaTail config
          { s0 with
              records_to_load := records2
              row_count := rc2
              flushed_state := fl'
              events := s0.events ++ [.flushedStreams (s.records_to_load.map Prod.fst), .emittedState fl']
              emitted := s0.emitted ++ emit_state fl' }
          stream sch key_properties
    else stepSchemaTail config s0 stream sch key_properties

/-- One iteration of the persist_lines message loop.  Returns the successor
state and `some error` when the iteration raises (the returned state then
carries the events performed before the raise; the in-memory dicts are dead at
that point since the exception aborts the run). -/
def step (config : Config) (s : LoaderState) (m : Msg) : LoaderState × Option String :=
  match m with
  | .record stream pkRaw payload => stepRecord config s stream pkRaw payload
  | .schema stream sch key_properties => stepSchema config s stream sch key_properties
  | .state value =>
    let flushed' := if tapTruthy s.flushed_state then s.flushed_state else some value
    ({ s with state := some value, flushed_state := flushed' }, none)
  | .activateVersion => (s, none)

/-- The persist_lines message loop: fold `step` over the input, stopping at
the first raised exception. -/
def runMsgs (config : Config) (msgs : List Msg) : LoaderState × Option String :=
  msgs.foldl (fun acc m => match acc.2 with | some _ => acc | none => step config acc.1 m)
    (initLoader, none)

/-- __init__.persist_lines: run the loop, flush every bucket once more when
any rows remain, and emit the final checkpoint. -/
def persist_lines (config : Config) (msgs : List Msg) : LoaderState × Option String :=
  match runMsgs config msgs with
  | (s, some e) => (s, some e)
  | (s, none) =>
    let total := s.row_count.foldl (fun a p => a + p.2) 0
    let flushRes : Except String LoaderState :=
      if total > 0 then
        match flush_streams s.records_to_load s.row_count config s.state s.flushed_state none with
        | .error e => .error e
        | .ok (records2, rc2, fl') =>
          .ok { s with
              records_to_load := records2
              row_count := rc2
              flushed_state := fl'
              events := s.events ++ [.flushedStreams (s.records_to_load.map Prod.fst)] }
      else .ok s
    match flushRes with
    | .error e => (s, some e)
    | .ok s1 =>
      ({ s1 with
          events := s1.events ++ [.emittedState s1.flushed_state]
          emitted := s1.emitted ++ emit_state s1.flushed_state }, none)

/-! ## Sample schema nodes and configurations used by concrete scenarios -/

/-- A plain integer-typed property. -/
def intNode : SNode := ⟨some (JTy.l ["integer"]), none, none, none, none⟩

/-- A date-time property (maps to 'timestamp without time zone'). -/
def dtNode : SNode := ⟨some (JTy.l ["null", "string"]), some "date-time", none, none, none⟩

/-- An object-typed schema with the given properties. -/
def objNode (props : List (String × SNode)) : SNode :=
  ⟨some (JTy.l ["object"]), none, none, some props, none⟩

/-- A configuration with every key absent / falsy. -/
def cfgDefault : Config := ⟨none, none, none, false, false, false, none, none, none⟩

/-- A configuration with batch_size_rows 1 and flush_all_streams unset. -/
def cfgBatch1 : Config := ⟨some 1, none, none, false, false, false, none, none, none⟩

/-- A configuration with batch_size_rows 10 and flush_all_streams unset. -/
def cfgBatch10 : Config := ⟨some 10, none, none, false, false, false, none, none, none⟩

/-- The recursion available at the top flatten_schema level for a given
max_level (none when `level < max_level` already fails at level 0). -/
def flattenRecOf : Nat → Option FlattenRec
  | 0 => none
  | f + 1 => some (flattenFuel "__" f)

/-! ## Concrete sample inputs used by the scenario theorems -/

def c1Streams : StreamsDict := [("a", [("p", 1)]), ("b", [("q", 2)])]
def c1Rc : RowCount := [("a", 1), ("b", 1)]
def c1St : TapState := ⟨some [("a", 10), ("b", 20)], 5⟩
def c1Prev : TapState := ⟨some [("a", 1), ("b", 2)], 3⟩

def c5DupSchema : SNode := objNode [("a__b", intNode), ("a", objNode [("b", intNode)])]

def c9AnyOfNode : SNode :=
  ⟨none, none, none, none, some [⟨some (JTy.s "string"), none, none, none, none⟩]⟩

def c2Msgs : List Msg :=
  [Msg.schema "A" (objNode [("id", intNode)]) ["id"],
   Msg.schema "B" (objNode [("id", intNode)]) ["id"],
   Msg.record "A" "1" 11, Msg.record "B" "1" 21,
   Msg.schema "A" (objNode [("id", intNode)]) ["id"]]

/-- The reported row count of a stream (absent entries read as 0). -/
def rcD (s : LoaderState) (stream : String) : Nat := (aget s.row_count stream).getD 0

/-- The buffered batch of a stream (absent entries read as empty). -/
def bufD (s : LoaderState) (stream : String) : Buf := (aget s.records_to_load stream).getD []

/-- The loop invariant: every buffer is keyed by distinct primary-key strings
and every stream's row count equals its buffer's size. -/
def WF (s : LoaderState) : Prop :=
  (∀ st buf, aget s.records_to_load st = some buf → (buf.map Prod.fst).Nodup) ∧
  (∀ st, rcD s st = (bufD s st).length)

def c3Msgs : List Msg :=
  [Msg.schema "A" (objNode [("id", intNode)]) ["id"],
   Msg.record "A" "k1" 5, Msg.record "A" "k1" 6, Msg.record "A" "k2" 7]

def c3S : LoaderState := (runMsgs cfgBatch10 c3Msgs).1

/-! ## Lemmas: association lists -/

theorem aget_aset_self {β : Type} (l : List (String × β)) (k : String) (v : β) :
    aget (aset l k v) k = some v := by
  induction l with
  | nil => simp [aget, aset]
  | cons p t ih =>
    by_cases h : p.1 = k
    · simp [aset, h, aget]
    · simp only [aset]
      rw [if_neg (by simpa using h)]
      simp only [aget]
      rw [if_neg (by simpa using h)]
      exact ih

theorem aget_aset_ne {β : Type} (l : List (String × β)) (k k' : String) (v : β)
    (h : k ≠ k') : aget (aset l k v) k' = aget l k' := by
  induction l with
  | nil => simp [aget, aset, h]
  | cons p t ih =>
    by_cases hp : p.1 = k
    · simp only [aset]
      rw [if_pos (by simpa using hp)]
      simp only [aget]
      rw [if_neg h, if_neg (hp ▸ h)]
    · simp only [aset]
      rw [if_neg (by simpa using hp)]
      simp only [aget]
      by_cases hp' : p.1 = k'
      · rw [if_pos hp', if_pos hp']
      · rw [if_neg hp', if_neg hp']
        exact ih

theorem isSome_aget_aset {β : Type} (l : List (String × β)) (k k' : String) (v : β)
    (h : (aget l k').isSome) : (aget (aset l k v) k').isSome := by
  by_cases hk : k = k'
  · subst hk; rw [aget_aset_self]; rfl
  · rw [aget_aset_ne l k k' v hk]; exact h

theorem aget_eq_none_iff {β : Type} (l : List (String × β)) (k : String) :
    aget l k = none ↔ k ∉ l.map Prod.fst := by
  induction l with
  | nil => simp [aget]
  | cons p t ih =>
    simp only [aget, List.map_cons, List.mem_cons]
    by_cases h : p.1 = k
    · rw [if_pos h]
      constructor
      · intro hc; cases hc
      · intro hc; exact absurd (Or.inl h.symm) hc
    · rw [if_neg h, ih]
      constructor
      · intro hn hc
        cases hc with
        | inl he => exact h he.symm
        | inr hm => exact hn hm
      · intro hn hm
        exact hn (Or.inr hm)

theorem length_aset_isSome {β : Type} (l : List (String × β)) (k : String) (v : β)
    (h : (aget l k).isSome) : (aset l k v).length = l.length := by
  induction l with
  | nil => simp [aget] at h
  | cons p t ih =>
    by_cases hp : p.1 = k
    · simp only [aset]
      rw [if_pos (by simpa using hp)]
      simp
    · simp only [aset]
      rw [if_neg (by simpa using hp)]
      simp only [List.length_cons]
      rw [ih]
      simp only [aget] at h
      rwa [if_neg hp] at h

theorem length_aset_none {β : Type} (l : List (String × β)) (k : String) (v : β)
    (h : aget l k = none) : (aset l k v).length = l.length + 1 := by
  induction l with
  | nil => simp [aset]
  | cons p t ih =>
    simp only [aget] at h
    by_cases hp : p.1 = k
    · rw [if_pos hp] at h; cases h
    · rw [if_neg hp] at h
      simp only [aset]
      rw [if_neg (by simpa using hp)]
      simp only [List.length_cons]
      rw [ih h]

theorem map_fst_aset_isSome {β : Type} (l : List (String × β)) (k : String) (v : β)
    (h : (aget l k).isSome) : (aset l k v).map Prod.fst = l.map Prod.fst := by
  induction l with
  | nil => simp [aget] at h
  | cons p t ih =>
    by_cases hp : p.1 = k
    · simp only [aset]
      rw [if_pos (by simpa using hp)]
      simp [hp]
    · simp only [aset]
      rw [if_neg (by simpa using hp)]
      simp only [List.map_cons, List.cons.injEq, true_and]
      apply ih
      simp only [aget] at h
      rwa [if_neg hp] at h

theorem map_fst_aset_none {β : Type} (l : List (String × β)) (k : String) (v : β)
    (h : aget l k = none) : (aset l k v).map Prod.fst = l.map Prod.fst ++ [k] := by
  induction l with
  | nil => simp [aset]
  | cons p t ih =>
    simp only [aget] at h
    by_cases hp : p.1 = k
    · rw [if_pos hp] at h; cases h
    · rw [if_neg hp] at h
      simp only [aset]
      rw [if_neg (by simpa using hp)]
      simp [ih h]

theorem nodup_map_fst_aset {β : Type} (l : List (String × β)) (k : String) (v : β)
    (h : (l.map Prod.fst).Nodup) : ((aset l k v).map Prod.fst).Nodup := by
  cases hk : aget l k with
  | none =>
    rw [map_fst_aset_none l k v hk]
    have hkn : k ∉ l.map Prod.fst := (aget_eq_none_iff l k).1 hk
    simp [List.nodup_append, h, hkn]
  | some w =>
    rw [map_fst_aset_isSome l k v (by rw [hk]; rfl)]
    exact h

/-! ## Lemmas: the flush loops -/

theorem flushLoadLoop_ok (streams : StreamsDict) (ss : List String) (rc rc' : RowCount)
    (h : flushLoadLoop streams ss rc = .ok rc') :
    (∀ k ∈ ss, (aget streams k).isSome ∧ aget rc' k = some 0) ∧
    (∀ k, k ∉ ss → aget rc' k = aget rc k) := by
  induction ss generalizing rc with
  | nil =>
    simp only [flushLoadLoop] at h
    cases h
    exact ⟨by simp, fun k _ => rfl⟩
  | cons s rest ih =>
    simp only [flushLoadLoop, load_stream_batch, exceptGet] at h
    cases hs : aget streams s with
    | none => rw [hs] at h; cases h
    | some buf =>
      rw [hs] at h
      cases hr : aget rc s with
      | none => rw [hr] at h; cases h
      | some n =>
        rw [hr] at h
        set rc1 := if n > 0 then aset rc s 0 else rc with hrc1
        have hrc1s : aget rc1 s = some 0 := by
          by_cases hn : n > 0
          · rw [hrc1, if_pos hn]; exact aget_aset_self rc s 0
          · rw [hrc1, if_neg hn]
            have : n = 0 := by omega
            rw [hr, this]
        have hrc1ne : ∀ k, k ≠ s → aget rc1 k = aget rc k := by
          intro k hk
          by_cases hn : n > 0
          · rw [hrc1, if_pos hn]; exact aget_aset_ne rc s k 0 (fun he => hk he.symm)
          · rw [hrc1, if_neg hn]
        rcases ih rc1 h with ⟨h1, h2⟩
        constructor
        · intro k hk
          rcases List.mem_cons.1 hk with hks | hkr
          · subst hks
            by_cases hmem : k ∈ rest
            · exact h1 k hmem
            · exact ⟨by rw [hs]; rfl, by rw [h2 k hmem]; exact hrc1s⟩
          · exact h1 k hkr
        · intro k hk
          have hks : k ≠ s := fun he => hk (he ▸ List.mem_cons_self s rest)
          have hkr : k ∉ rest := fun hm => hk (List.mem_cons_of_mem s hm)
          rw [h2 k hkr, hrc1ne k hks]

theorem flushLoadLoop_exists (streams : StreamsDict) (ss : List String) (rc : RowCount)
    (h : ∀ k ∈ ss, (aget streams k).isSome ∧ (aget rc k).isSome) :
    ∃ rc', flushLoadLoop streams ss rc = .ok rc' := by
  induction ss generalizing rc with
  | nil => exact ⟨rc, rfl⟩
  | cons s rest ih =>
    rcases h s (List.mem_cons_self s rest) with ⟨hs, hr⟩
    cases hsv : aget streams s with
    | none => rw [hsv] at hs; cases hs
    | some buf =>
      cases hrv : aget rc s with
      | none => rw [hrv] at hr; cases hr
      | some n =>
        set rc1 := if n > 0 then aset rc s 0 else rc with hrc1
        have hpres : ∀ k ∈ rest, (aget streams k).isSome ∧ (aget rc1 k).isSome := by
          intro k hk
          rcases h k (List.mem_cons_of_mem s hk) with ⟨h1, h2⟩
          refine ⟨h1, ?_⟩
          by_cases hn : n > 0
          · rw [hrc1, if_pos hn]; exact isSome_aget_aset rc s k 0 h2
          · rw [hrc1, if_neg hn]; exact h2
        rcases ih rc1 hpres with ⟨rc', hrc'⟩
        refine ⟨rc', ?_⟩
        simp only [flushLoadLoop, load_stream_batch, exceptGet, hsv, hrv]
        exact hrc'

theorem flushResetLoop_nil (state : Option TapState) (ft : Bool)
    (acc : StreamsDict × Option TapState) : flushResetLoop state ft [] acc = .ok acc := rfl

theorem flushResetLoop_cons_falsy (state : Option TapState) (s : String) (rest : List String)
    (strs : StreamsDict) (fl : Option TapState) :
    flushResetLoop state false (s :: rest) (strs, fl) =
      flushResetLoop state false rest (aset strs s [], state) := rfl

theorem flushResetLoop_cons_none (s : String) (rest : List String) (strs : StreamsDict)
    (fl : Option TapState) :
    flushResetLoop none true (s :: rest) (strs, fl) =
      .error "AttributeError: NoneType object has no attribute get" := rfl

theorem flushResetLoop_cons_truthy (st : TapState) (s : String) (rest : List String)
    (strs : StreamsDict) (fl : Option TapState) :
    flushResetLoop (some st) true (s :: rest) (strs, fl) =
      match bkm st s with
      | none => flushResetLoop (some st) true rest (aset strs s [], fl)
      | some b =>
        match fl with
        | none => .error "TypeError: argument of type NoneType is not iterable"
        | some f =>
          flushResetLoop (some st) true rest
            (aset strs s [], some { f with bookmarks := some (aset (f.bookmarks.getD []) s b) }) := rfl

/-- Total characterization of the reset loop with a falsy filter: it never
raises, clears every selected buffer, and sets the checkpoint to the latest
state (for a nonempty selection). -/
theorem flushResetLoop_falsy (state fl0 : Option TapState) (ss : List String)
    (strs : StreamsDict) :
    ∃ S, flushResetLoop state false ss (strs, fl0) = .ok (S, if ss.isEmpty then fl0 else state) ∧
      (∀ k ∈ ss, aget S k = some []) ∧ (∀ k, k ∉ ss → aget S k = aget strs k) := by
  induction ss generalizing strs fl0 with
  | nil => exact ⟨strs, rfl, by simp, fun k _ => rfl⟩
  | cons s rest ih =>
    rcases ih state (aset strs s []) with ⟨S, hS, h1, h2⟩
    refine ⟨S, ?_, ?_, ?_⟩
    · rw [flushResetLoop_cons_falsy, hS]
      by_cases hr : rest.isEmpty <;> simp [hr]
    · intro k hk
      rcases List.mem_cons.1 hk with hks | hkr
      · subst hks
        by_cases hmem : k ∈ rest
        · exact h1 k hmem
        · rw [h2 k hmem]; exact aget_aset_self strs k []
      · exact h1 k hkr
    · intro k hk
      have hks : k ≠ s := fun he => hk (he ▸ List.mem_cons_self s rest)
      have hkr : k ∉ rest := fun hm => hk (List.mem_cons_of_mem s hm)
      rw [h2 k hkr, aget_aset_ne strs s k [] (fun he => hks he.symm)]

/-- With a truthy filter, an observed state, a non-`None` previous checkpoint
and a bookmark for every selected stream, the reset loop succeeds and the
resulting checkpoint is the previous one with exactly the selected streams'
bookmarks overlaid from the latest state. -/
theorem flushResetLoop_truthy (st : TapState) (f0 : TapState) (ss : List String)
    (strs : StreamsDict) (hbk : ∀ s ∈ ss, (bkm st s).isSome) :
    ∃ S f', flushResetLoop (some st) true ss (strs, some f0) = .ok (S, some f') ∧
      f'.rest = f0.rest ∧
      (∀ k, aget (f'.bookmarks.getD []) k =
        if k ∈ ss then bkm st k else aget (f0.bookmarks.getD []) k) ∧
      (∀ k ∈ ss, aget S k = some []) ∧ (∀ k, k ∉ ss → aget S k = aget strs k) := by
  induction ss generalizing strs f0 with
  | nil =>
    refine ⟨strs, f0, rfl, rfl, ?_, by simp, fun k _ => rfl⟩
    intro k
    rw [if_neg (List.not_mem_nil k)]
  | cons s rest ih =>
    cases hb : bkm st s with
    | none =>
      have := hbk s (List.mem_cons_self s rest)
      rw [hb] at this
      cases this
    | some b =>
      set f1 : TapState := { f0 with bookmarks := some (aset (f0.bookmarks.getD []) s b) } with hf1
      have hbk' : ∀ x ∈ rest, (bkm st x).isSome := fun x hx => hbk x (List.mem_cons_of_mem s hx)
      rcases ih f1 (aset strs s []) hbk' with ⟨S, f', hS, hrest, hchar, hs1, hs2⟩
      refine ⟨S, f', ?_, by rw [hrest], ?_, ?_, ?_⟩
      · rw [flushResetLoop_cons_truthy, hb]
        exact hS
      · intro k
        rw [hchar k]
        by_cases hk : k ∈ rest
        · rw [if_pos hk, if_pos (List.mem_cons_of_mem s hk)]
        · rw [if_neg hk]
          by_cases hks : k = s
          · subst hks
            rw [if_pos (List.mem_cons_self k rest)]
            have hbb : f1.bookmarks.getD [] = aset (f0.bookmarks.getD []) k b := rfl
            rw [hbb, aget_aset_self, hb]
          · rw [if_neg (by simp [hks, hk])]
            have hbb : f1.bookmarks.getD [] = aset (f0.bookmarks.getD []) s b := rfl
            rw [hbb, aget_aset_ne _ s k b (fun he => hks he.symm)]
      · intro k hk
        rcases List.mem_cons.1 hk with hks | hkr
        · subst hks
          by_cases hmem : k ∈ rest
          · exact hs1 k hmem
          · rw [hs2 k hmem]; exact aget_aset_self strs k []
        · exact hs1 k hkr
      · intro k hk
        have hks : k ≠ s := fun he => hk (he ▸ List.mem_cons_self s rest)
        have hkr : k ∉ rest := fun hm => hk (List.mem_cons_of_mem s hm)
        rw [hs2 k hkr, aget_aset_ne strs s k [] (fun he => hks he.symm)]

/-- With a truthy filter and no observed state, the reset loop raises at the
first selected stream. -/
theorem flushResetLoop_none_state (ss : List String) (hss : ss ≠ []) (fl0 : Option TapState)
    (strs : StreamsDict) :
    flushResetLoop none true ss (strs, fl0) =
      .error "AttributeError: NoneType object has no attribute get" := by
  cases ss with
  | nil => exact absurd rfl hss
  | cons s rest => rfl

/-- The buffers after any successful reset loop: selected streams are cleared,
others untouched (any filter, any state). -/
theorem flushResetLoop_ok_streams (state : Option TapState) (ft : Bool) (ss : List String)
    (strs : StreamsDict) (fl0 : Option TapState) (S : StreamsDict) (fl' : Option TapState)
    (h : flushResetLoop state ft ss (strs, fl0) = .ok (S, fl')) :
    (∀ k ∈ ss, aget S k = some []) ∧ (∀ k, k ∉ ss → aget S k = aget strs k) := by
  induction ss generalizing strs fl0 with
  | nil =>
    rw [flushResetLoop_nil] at h
    cases h
    exact ⟨by simp, fun k _ => rfl⟩
  | cons s rest ih =>
    have step_out : ∃ fl1, flushResetLoop state ft rest (aset strs s [], fl1) = .ok (S, fl') := by
      cases ft with
      | false =>
        rw [flushResetLoop_cons_falsy] at h
        exact ⟨state, h⟩
      | true =>
        cases state with
        | none => rw [flushResetLoop_cons_none] at h; cases h
        | some st =>
          rw [flushResetLoop_cons_truthy] at h
          cases hb : bkm st s with
          | none => rw [hb] at h; exact ⟨fl0, h⟩
          | some b =>
            rw [hb] at h
            cases fl0 with
            | none => cases h
            | some f =>
              exact ⟨some { f with bookmarks := some (aset (f.bookmarks.getD []) s b) }, h⟩
    rcases step_out with ⟨fl1, h1⟩
    rcases ih (aset strs s []) fl1 h1 with ⟨ha, hb⟩
    constructor
    · intro k hk
      rcases List.mem_cons.1 hk with hks | hkr
      · subst hks
        by_cases hmem : k ∈ rest
        · exact ha k hmem
        · rw [hb k hmem]; exact aget_aset_self strs k []
      · exact ha k hkr
    · intro k hk
      have hks : k ≠ s := fun he => hk (he ▸ List.mem_cons_self s rest)
      have hkr : k ∉ rest := fun hm => hk (List.mem_cons_of_mem s hm)
      rw [hb k hkr, aget_aset_ne strs s k [] (fun he => hks he.symm)]

/-- With no observed state, a successful reset loop leaves the checkpoint
`None`. -/
theorem flushResetLoop_ok_none_state (ft : Bool) (ss : List String) (strs : StreamsDict)
    (S : StreamsDict) (fl' : Option TapState)
    (h : flushResetLoop none ft ss (strs, none) = .ok (S, fl')) : fl' = none := by
  induction ss generalizing strs with
  | nil =>
    rw [flushResetLoop_nil] at h
    cases h; rfl
  | cons s rest ih =>
    cases ft with
    | false =>
      rw [flushResetLoop_cons_falsy] at h
      exact ih (aset strs s []) h
    | true =>
      rw [flushResetLoop_cons_none] at h
      cases h

/-! ## Lemmas: flush_streams -/

theorem mem_map_fst_isSome {β : Type} (l : List (String × β)) (k : String)
    (h : k ∈ l.map Prod.fst) : (aget l k).isSome := by
  cases hv : aget l k with
  | none => exact absurd h ((aget_eq_none_iff l k).1 hv)
  | some v => rfl

theorem flush_streams_eq (streams : StreamsDict) (rc : RowCount) (cfg : Config)
    (state fl : Option TapState) (filter : Option (List String)) :
    flush_streams streams rc cfg state fl filter =
      match flushLoadLoop streams (streams_to_flush streams filter) rc with
      | .error e => .error e
      | .ok rc' =>
        match flushResetLoop state (pyTruthyFilter filter) (streams_to_flush streams filter)
            (streams, fl) with
        | .error e => .error e
        | .ok (S, fl') => .ok (S, rc', fl') := rfl

/-- Successful flushes clear exactly the selected streams' buffers and counts
and leave the others untouched. -/
theorem flush_streams_ok_spec (streams : StreamsDict) (rc : RowCount) (cfg : Config)
    (state fl : Option TapState) (filter : Option (List String))
    (S : StreamsDict) (R : RowCount) (fl' : Option TapState)
    (h : flush_streams streams rc cfg state fl filter = .ok (S, R, fl')) :
    (∀ k ∈ streams_to_flush streams filter,
      (aget streams k).isSome ∧ aget R k = some 0 ∧ aget S k = some []) ∧
    (∀ k, k ∉ streams_to_flush streams filter →
      aget R k = aget rc k ∧ aget S k = aget streams k) := by
  rw [flush_streams_eq] at h
  cases hload : flushLoadLoop streams (streams_to_flush streams filter) rc with
  | error e => rw [hload] at h; cases h
  | ok rc' =>
    rw [hload] at h
    cases hreset : flushResetLoop state (pyTruthyFilter filter)
        (streams_to_flush streams filter) (streams, fl) with
    | error e => rw [hreset] at h; cases h
    | ok acc =>
      rcases acc with ⟨S0, fl0⟩
      rw [hreset] at h
      cases h
      rcases flushLoadLoop_ok streams _ rc R hload with ⟨hl1, hl2⟩
      rcases flushResetLoop_ok_streams state _ _ streams fl S fl' hreset with ⟨hr1, hr2⟩
      exact ⟨fun k hk => ⟨(hl1 k hk).1, (hl1 k hk).2, hr1 k hk⟩,
        fun k hk => ⟨hl2 k hk, hr2 k hk⟩⟩

/-- A flush restricted by a nonempty filter, with an observed state holding a
bookmark for every selected stream and a previous checkpoint, succeeds and
returns the previous checkpoint with exactly the selected streams' bookmarks
overlaid from the latest state. -/
theorem flush_streams_subset (streams : StreamsDict) (rc : RowCount) (cfg : Config)
    (st prev : TapState) (fs : List String) (hfs : fs ≠ [])
    (hmem : ∀ s ∈ fs, (aget streams s).isSome ∧ (aget rc s).isSome)
    (hbk : ∀ s ∈ fs, (bkm st s).isSome) :
    ∃ S R f', flush_streams streams rc cfg (some st) (some prev) (some fs) = .ok (S, R, some f') ∧
      f'.rest = prev.rest ∧
      (∀ k, aget (f'.bookmarks.getD []) k =
        if k ∈ fs then bkm st k else aget (prev.bookmarks.getD []) k) := by
  have hft : pyTruthyFilter (some fs) = true := by
    simp [pyTruthyFilter, hfs]
  have hstf : streams_to_flush streams (some fs) = fs := by
    simp [streams_to_flush, hft]
  rcases flushLoadLoop_exists streams fs rc hmem with ⟨R, hR⟩
  rcases flushResetLoop_truthy st prev fs streams hbk with ⟨S, f', hS, hrest, hchar, _, _⟩
  refine ⟨S, R, f', ?_, hrest, hchar⟩
  rw [flush_streams_eq, hstf, hR, hft, hS]

/-- An unrestricted flush with an observed state returns that state itself as
the checkpoint (nonempty buffered streams). -/
theorem flush_streams_all (streams : StreamsDict) (rc : RowCount) (cfg : Config)
    (st : TapState) (prev : Option TapState) (hne : streams ≠ [])
    (hmem : ∀ s ∈ streams.map Prod.fst, (aget rc s).isSome) :
    ∃ S R, flush_streams streams rc cfg (some st) prev none = .ok (S, R, some st) := by
  have hstf : streams_to_flush streams none = streams.map Prod.fst := rfl
  have hmem' : ∀ s ∈ streams.map Prod.fst, (aget streams s).isSome ∧ (aget rc s).isSome :=
    fun s hs => ⟨mem_map_fst_isSome streams s hs, hmem s hs⟩
  rcases flushLoadLoop_exists streams _ rc hmem' with ⟨R, hR⟩
  rcases flushResetLoop_falsy (some st) prev (streams.map Prod.fst) streams with ⟨S, hS, _, _⟩
  refine ⟨S, R, ?_⟩
  rw [flush_streams_eq, hstf, hR]
  have hfe : (streams.map Prod.fst).isEmpty = false := by
    cases streams with
    | nil => exact absurd rfl hne
    | cons p t => rfl
  rw [hfe] at hS
  have hfalsy : pyTruthyFilter (none : Option (List String)) = false := rfl
  rw [hfalsy, hS]
  rfl

/-- A flush restricted by a nonempty filter before any state was observed
raises the AttributeError from `state.get('bookmarks', {})`. -/
theorem flush_streams_no_state_subset (streams : StreamsDict) (rc : RowCount) (cfg : Config)
    (prev : Option TapState) (fs : List String) (hfs : fs ≠ [])
    (hmem : ∀ s ∈ fs, (aget streams s).isSome ∧ (aget rc s).isSome) :
    flush_streams streams rc cfg none prev (some fs) =
      .error "AttributeError: NoneType object has no attribute get" := by
  have hft : pyTruthyFilter (some fs) = true := by
    simp [pyTruthyFilter, hfs]
  have hstf : streams_to_flush streams (some fs) = fs := by
    simp [streams_to_flush, hft]
  rcases flushLoadLoop_exists streams fs rc hmem with ⟨R, hR⟩
  rw [flush_streams_eq, hstf, hR, hft, flushResetLoop_none_state fs hfs prev streams]

/-- An unrestricted flush with no observed state and no previous checkpoint
completes with an absent checkpoint. -/
theorem flush_streams_no_state_all (streams : StreamsDict) (rc : RowCount) (cfg : Config)
    (hmem : ∀ s ∈ streams.map Prod.fst, (aget rc s).isSome) :
    ∃ S R, flush_streams streams rc cfg none none none = .ok (S, R, none) := by
  have hmem' : ∀ s ∈ streams.map Prod.fst, (aget streams s).isSome ∧ (aget rc s).isSome :=
    fun s hs => ⟨mem_map_fst_isSome streams s hs, hmem s hs⟩
  rcases flushLoadLoop_exists streams _ rc hmem' with ⟨R, hR⟩
  rcases flushResetLoop_falsy none none (streams.map Prod.fst) streams with ⟨S, hS, _, _⟩
  refine ⟨S, R, ?_⟩
  have hstf : streams_to_flush streams none = streams.map Prod.fst := rfl
  rw [flush_streams_eq, hstf, hR]
  have hifn : (if (streams.map Prod.fst).isEmpty then (none : Option TapState) else none) = none := by
    by_cases hb : (streams.map Prod.fst).isEmpty <;> simp [hb]
  rw [hifn] at hS
  have hfalsy : pyTruthyFilter (none : Option (List String)) = false := rfl
  rw [hfalsy, hS]

/-! ## Lemmas: the message loop -/

theorem stepRecord_eq (cfg : Config) (s : LoaderState) (stream pkRaw : String) (payload : Nat)
    (tot rcv : Nat) (hmem : stream ∈ s.schemas)
    (htot : aget s.total_row_count stream = some tot)
    (hrc : aget s.row_count stream = some rcv) :
    stepRecord cfg s stream pkRaw payload = stepRecordCore cfg s stream pkRaw payload tot rcv := by
  unfold stepRecord
  rw [if_neg (not_not_intro hmem), htot, hrc]

theorem flush_streams_ok_no_state (streams : StreamsDict) (rc : RowCount) (cfg : Config)
    (filter : Option (List String)) (S : StreamsDict) (R : RowCount) (fl' : Option TapState)
    (h : flush_streams streams rc cfg none none filter = .ok (S, R, fl')) : fl' = none := by
  rw [flush_streams_eq] at h
  cases hl : flushLoadLoop streams (streams_to_flush streams filter) rc with
  | error e => rw [hl] at h; cases h
  | ok rc2 =>
    rw [hl] at h
    cases hr : flushResetLoop none (pyTruthyFilter filter) (streams_to_flush streams filter)
        (streams, none) with
    | error e => rw [hr] at h; cases h
    | ok acc =>
      rcases acc with ⟨S0, fl0⟩
      rw [hr] at h
      cases h
      exact flushResetLoop_ok_none_state _ _ _ _ _ hr


/-- Equation for a RECORD step that fills the batch: the updated buffers and
counts are handed to flush_streams with a one-stream filter unless
flush_all_streams is configured. -/
theorem stepRecordCore_flush (cfg : Config) (s : LoaderState) (stream pkRaw : String)
    (payload tot rcv : Nat) (pk : String) (records0 : StreamsDict) (buf : Buf) (isNew : Bool)
    (row_count' total' : RowCount) (records' : StreamsDict) (rcv' : Nat)
    (hpk : pk = if pkRaw = "" then "RID-" ++ toString tot else pkRaw)
    (hr0 : records0 = if (aget s.records_to_load stream).isSome then s.records_to_load
      else aset s.records_to_load stream [])
    (hbuf : buf = (aget records0 stream).getD [])
    (hnew : isNew = (aget buf pk).isNone)
    (hrc2 : row_count' = if isNew then aset s.row_count stream (rcv + 1) else s.row_count)
    (htot2 : total' = if isNew then aset s.total_row_count stream (tot + 1) else s.total_row_count)
    (hrecs : records' = aset records0 stream (aset buf pk payload))
    (hrcv2 : rcv' = if isNew then rcv + 1 else rcv)
    (htrig : rcv' ≥ cfg.batch_size_rows.getD DEFAULT_BATCH_SIZE_ROWS) :
    stepRecordCore cfg s stream pkRaw payload tot rcv =
      match flush_streams records' row_count' cfg s.state s.flushed_state
          (if cfg.flush_all_streams then none else some [stream]) with
      | .error e => (s, some e)
      | .ok (records2, rc2, fl') =>
        ({ s with
            records_to_load := records2
            row_count := rc2
            total_row_count := total'
            flushed_state := fl'
            events := s.events ++ [.flushedStreams (streams_to_flush records'
              (if cfg.flush_all_streams then none else some [stream])), .emittedState fl']
            emitted := s.emitted ++ emit_state fl' }, none) := by
  subst hpk hr0 hbuf hnew hrc2 htot2 hrecs hrcv2
  unfold stepRecordCore
  rw [if_pos htrig]

/-- Equation for a RECORD step below the batch size: buffer and counters are
updated in place, nothing is flushed. -/
theorem stepRecordCore_nobatch (cfg : Config) (s : LoaderState) (stream pkRaw : String)
    (payload tot rcv : Nat) (pk : String) (records0 : StreamsDict) (buf : Buf) (isNew : Bool)
    (row_count' total' : RowCount) (records' : StreamsDict) (rcv' : Nat)
    (hpk : pk = if pkRaw = "" then "RID-" ++ toString tot else pkRaw)
    (hr0 : records0 = if (aget s.records_to_load stream).isSome then s.records_to_load
      else aset s.records_to_load stream [])
    (hbuf : buf = (aget records0 stream).getD [])
    (hnew : isNew = (aget buf pk).isNone)
    (hrc2 : row_count' = if isNew then aset s.row_count stream (rcv + 1) else s.row_count)
    (htot2 : total' = if isNew then aset s.total_row_count stream (tot + 1) else s.total_row_count)
    (hrecs : records' = aset records0 stream (aset buf pk payload))
    (hrcv2 : rcv' = if isNew then rcv + 1 else rcv)
    (htrig : ¬(rcv' ≥ cfg.batch_size_rows.getD DEFAULT_BATCH_SIZE_ROWS)) :
    stepRecordCore cfg s stream pkRaw payload tot rcv =
      ({ s with
          records_to_load := records'
          row_count := row_count'
          total_row_count := total' }, none) := by
  subst hpk hr0 hbuf hnew hrc2 htot2 hrecs hrcv2
  unfold stepRecordCore
  rw [if_neg htrig]

theorem stepSchema_flush (cfg : Config) (s : LoaderState) (stream : String) (sch : SNode)
    (key_properties : List String) (s0 : LoaderState)
    (hs0 : s0 = { s with schemas := if stream ∈ s.schemas then s.schemas else s.schemas ++ [stream] })
    (hrc0 : (aget s.row_count stream).getD 0 > 0) :
    stepSchema cfg s stream sch key_properties =
      match flush_streams s.records_to_load s.row_count cfg s.state s.flushed_state none with
      | .error e => (s0, some e)
      | .ok (records2, rc2, fl') =>
        stepSchemaTail cfg
          { s0 with
              records_to_load := records2
              row_count := rc2
              flushed_state := fl'
              events := s0.events ++ [.flushedStreams (s.records_to_load.map Prod.fst), .emittedState fl']
              emitted := s0.emitted ++ emit_state fl' }
          stream sch key_properties := by
  subst hs0
  unfold stepSchema
  rw [if_pos hrc0]

theorem stepSchema_noflush (cfg : Config) (s : LoaderState) (stream : String) (sch : SNode)
    (key_properties : List String) (s0 : LoaderState)
    (hs0 : s0 = { s with schemas := if stream ∈ s.schemas then s.schemas else s.schemas ++ [stream] })
    (hrc0 : ¬((aget s.row_count stream).getD 0 > 0)) :
    stepSchema cfg s stream sch key_properties = stepSchemaTail cfg s0 stream sch key_properties := by
  subst hs0
  unfold stepSchema
  rw [if_neg hrc0]

/-- The SCHEMA tail leaves state, checkpoint and stdout untouched; its only
successful changes are the three schema-adoption events and the counter
resets. -/
theorem stepSchemaTail_spec (cfg : Config) (s1 : LoaderState) (stream : String) (sch : SNode)
    (key_properties : List String) :
    (stepSchemaTail cfg s1 stream sch key_properties).1.state = s1.state ∧
    (stepSchemaTail cfg s1 stream sch key_properties).1.flushed_state = s1.flushed_state ∧
    (stepSchemaTail cfg s1 stream sch key_properties).1.emitted = s1.emitted ∧
    (stepSchemaTail cfg s1 stream sch key_properties).1.records_to_load = s1.records_to_load := by
  simp only [stepSchemaTail]
  by_cases hpk : (cfg.primary_key_required.getD true) ∧ key_properties = []
  · rw [if_pos hpk]
    exact ⟨rfl, rfl, rfl, rfl⟩
  · rw [if_neg hpk]
    cases hft : flatten_schema
        (if cfg.add_metadata_columns || cfg.hard_delete then add_metadata_columns_to_schema sch
          else sch)
        (cfg.data_flattening_max_level.getD 0) with
    | error e => exact ⟨rfl, rfl, rfl, rfl⟩
    | ok flat => exact ⟨rfl, rfl, rfl, rfl⟩

/-- While no STATE message has been observed, a (non-raising) step keeps the
latest state and the checkpoint absent and emits nothing. -/
theorem step_no_state (cfg : Config) (s : LoaderState) (m : Msg) (hm : m.isState = false)
    (h1 : s.state = none) (h2 : s.flushed_state = none) (h3 : s.emitted = [])
    (hok : (step cfg s m).2 = none) :
    (step cfg s m).1.state = none ∧ (step cfg s m).1.flushed_state = none ∧
      (step cfg s m).1.emitted = [] := by
  cases m with
  | state v => simp [Msg.isState] at hm
  | activateVersion => exact ⟨h1, h2, h3⟩
  | record stream pkRaw payload =>
    simp only [step] at hok ⊢
    by_cases hsch : stream ∈ s.schemas
    · cases htot : aget s.total_row_count stream with
      | none =>
        unfold stepRecord at hok
        rw [if_neg (not_not_intro hsch), htot] at hok
        simp at hok
      | some tot =>
        cases hrc : aget s.row_count stream with
        | none =>
          unfold stepRecord at hok
          rw [if_neg (not_not_intro hsch), htot, hrc] at hok
          simp at hok
        | some rcv =>
          rw [stepRecord_eq cfg s stream pkRaw payload tot rcv hsch htot hrc] at hok ⊢
          set records0 := (if (aget s.records_to_load stream).isSome then s.records_to_load
            else aset s.records_to_load stream []) with hr0
          set pk := (if pkRaw = "" then "RID-" ++ toString tot else pkRaw) with hpk
          set buf := ((aget records0 stream).getD []) with hbuf
          set isNew := ((aget buf pk).isNone) with hnew
          set rcv' := (if isNew then rcv + 1 else rcv) with hrcv2
          by_cases htrig : rcv' ≥ cfg.batch_size_rows.getD DEFAULT_BATCH_SIZE_ROWS
          · rw [stepRecordCore_flush cfg s stream pkRaw payload tot rcv pk records0 buf isNew
              _ _ _ rcv' hpk hr0 hbuf hnew rfl rfl rfl hrcv2 htrig] at hok ⊢
            rw [h1, h2] at hok ⊢
            cases hflush : flush_streams
                (aset records0 stream (aset buf pk payload))
                (if isNew then aset s.row_count stream (rcv + 1) else s.row_count)
                cfg none none (if cfg.flush_all_streams then none else some [stream]) with
            | error e =>
              rw [hflush] at hok
              exact absurd hok (Option.some_ne_none e)
            | ok res =>
              rcases res with ⟨records2, rc2, fl'⟩
              have hfl : fl' = none := flush_streams_ok_no_state _ _ _ _ _ _ _ hflush
              subst hfl
              refine ⟨rfl, rfl, ?_⟩
              rw [h3]
              rfl
          · rw [stepRecordCore_nobatch cfg s stream pkRaw payload tot rcv pk records0 buf isNew
              _ _ _ rcv' hpk hr0 hbuf hnew rfl rfl rfl hrcv2 htrig] at hok ⊢
            exact ⟨h1, h2, h3⟩
    · unfold stepRecord at hok
      rw [if_pos hsch] at hok
      simp at hok
  | schema stream sch key_properties =>
    simp only [step] at hok ⊢
    by_cases hrc0 : (aget s.row_count stream).getD 0 > 0
    · rw [stepSchema_flush cfg s stream sch key_properties _ rfl hrc0] at hok ⊢
      cases hflush : flush_streams s.records_to_load s.row_count cfg s.state s.flushed_state none with
      | error e => exact ⟨h1, h2, h3⟩
      | ok res =>
        rcases res with ⟨records2, rc2, fl'⟩
        rw [h1, h2] at hflush
        have hfl : fl' = none := flush_streams_ok_no_state _ _ _ _ _ _ _ hflush
        subst hfl
        rcases stepSchemaTail_spec cfg
            { s with
                schemas := if stream ∈ s.schemas then s.schemas else s.schemas ++ [stream]
                records_to_load := records2
                row_count := rc2
                flushed_state := none
                events := s.events ++ [.flushedStreams (s.records_to_load.map Prod.fst), .emittedState none]
                emitted := s.emitted ++ emit_state none }
            stream sch key_properties with ⟨t1, t2, t3, _⟩
        rw [t1, t2, t3]
        exact ⟨h1, rfl, by rw [h3]; rfl⟩
    · rw [stepSchema_noflush cfg s stream sch key_properties _ rfl hrc0] at hok ⊢
      rcases stepSchemaTail_spec cfg
          { s with schemas := if stream ∈ s.schemas then s.schemas else s.schemas ++ [stream] }
          stream sch key_properties with ⟨t1, t2, t3, _⟩
      rw [t1, t2, t3]
      exact ⟨h1, h2, h3⟩

theorem runMsgs_foldl_no_state (cfg : Config) (msgs : List Msg)
    (hns : ∀ m ∈ msgs, m.isState = false) (acc : LoaderState × Option String)
    (hacc : acc.2 = none → acc.1.state = none ∧ acc.1.flushed_state = none ∧ acc.1.emitted = []) :
    (msgs.foldl (fun a m => match a.2 with | some _ => a | none => step cfg a.1 m) acc).2 = none →
    (msgs.foldl (fun a m => match a.2 with | some _ => a | none => step cfg a.1 m) acc).1.state = none ∧
    (msgs.foldl (fun a m => match a.2 with | some _ => a | none => step cfg a.1 m) acc).1.flushed_state = none ∧
    (msgs.foldl (fun a m => match a.2 with | some _ => a | none => step cfg a.1 m) acc).1.emitted = [] := by
  induction msgs generalizing acc with
  | nil => exact hacc
  | cons m rest ih =>
    simp only [List.foldl_cons]
    apply ih (fun x hx => hns x (List.mem_cons_of_mem m hx))
    cases hacc2 : acc.2 with
    | some e =>
      intro h2
      exact hacc h2
    | none =>
      intro h2
      rcases hacc hacc2 with ⟨p1, p2, p3⟩
      exact step_no_state cfg acc.1 m (hns m (List.mem_cons_self m rest)) p1 p2 p3 h2

/-- Input sequences without a STATE message keep the latest state and the
checkpoint absent and never write to stdout. -/
theorem runMsgs_no_state (cfg : Config) (msgs : List Msg)
    (hns : ∀ m ∈ msgs, m.isState = false) (hok : (runMsgs cfg msgs).2 = none) :
    (runMsgs cfg msgs).1.state = none ∧ (runMsgs cfg msgs).1.flushed_state = none ∧
      (runMsgs cfg msgs).1.emitted = [] := by
  have := runMsgs_foldl_no_state cfg msgs hns (initLoader, none)
    (fun _ => ⟨rfl, rfl, rfl⟩)
  exact this hok

/-- A filled batch with flush_all_streams disabled and no observed state
aborts in flush_streams: the subset flush consults the absent state's
bookmarks. -/
theorem stepRecordCore_no_state_abort (cfg : Config) (s : LoaderState) (stream pkRaw : String)
    (payload tot rcv : Nat) (pk : String) (records0 : StreamsDict) (buf : Buf) (isNew : Bool)
    (rcv' : Nat)
    (hpk : pk = if pkRaw = "" then "RID-" ++ toString tot else pkRaw)
    (hr0 : records0 = if (aget s.records_to_load stream).isSome then s.records_to_load
      else aset s.records_to_load stream [])
    (hbuf : buf = (aget records0 stream).getD [])
    (hnew : isNew = (aget buf pk).isNone)
    (hrcv2 : rcv' = if isNew then rcv + 1 else rcv)
    (htrig : rcv' ≥ cfg.batch_size_rows.getD DEFAULT_BATCH_SIZE_ROWS)
    (hfa : cfg.flush_all_streams = false)
    (hst : s.state = none)
    (hrcp : (aget s.row_count stream).isSome) :
    (stepRecordCore cfg s stream pkRaw payload tot rcv).2 =
      some "AttributeError: NoneType object has no attribute get" := by
  rw [stepRecordCore_flush cfg s stream pkRaw payload tot rcv pk records0 buf isNew
    _ _ _ rcv' hpk hr0 hbuf hnew rfl rfl rfl hrcv2 htrig]
  rw [hfa, hst]
  have hflush : flush_streams (aset records0 stream (aset buf pk payload))
      (if isNew then aset s.row_count stream (rcv + 1) else s.row_count)
      cfg none s.flushed_state (some [stream]) =
      .error "AttributeError: NoneType object has no attribute get" := by
    apply flush_streams_no_state_subset
    · exact List.cons_ne_nil stream []
    · intro x hx
      have hxs : x = stream := by
        rcases List.mem_cons.1 hx with h | h
        · exact h
        · cases h
      subst hxs
      constructor
      · rw [aget_aset_self]; rfl
      · by_cases hn : isNew
        · rw [if_pos hn, aget_aset_self]; rfl
        · rw [if_neg hn]; exact hrcp
  rw [show (if false = true then (none : Option (List String)) else some [stream]) = some [stream]
    from rfl]
  rw [hflush]

/-- C1: a flush restricted to a strict subset of the buffered streams returns
the previous flushed checkpoint with exactly the just-flushed streams'
bookmark entries replaced by the latest observed state's bookmarks for those
streams (all other entries and the rest of the checkpoint unchanged), while an
unrestricted flush returns a full copy of the latest observed state. -/
theorem c1_flush_checkpoint (streams : StreamsDict) (rc : RowCount) (cfg : Config)
    (st prev : TapState) (fs : List String) (hfs : fs ≠ [])
    (hmem : ∀ s ∈ fs, (aget streams s).isSome ∧ (aget rc s).isSome)
    (hbk : ∀ s ∈ fs, (bkm st s).isSome)
    (hne : streams ≠ [])
    (hrcall : ∀ s ∈ streams.map Prod.fst, (aget rc s).isSome) :
    (∃ S R f', flush_streams streams rc cfg (some st) (some prev) (some fs) = .ok (S, R, some f') ∧
      f'.rest = prev.rest ∧
      (∀ k, aget (f'.bookmarks.getD []) k =
        if k ∈ fs then bkm st k else aget (prev.bookmarks.getD []) k)) ∧
    (∃ S R, flush_streams streams rc cfg (some st) (some prev) none = .ok (S, R, some st)) :=
  ⟨flush_streams_subset streams rc cfg st prev fs hfs hmem hbk,
   flush_streams_all streams rc cfg st (some prev) hne hrcall⟩

theorem c1_flush_checkpoint_witness :
    (∃ S R f', flush_streams c1Streams c1Rc cfgDefault (some c1St) (some c1Prev) (some ["a"]) =
        .ok (S, R, some f') ∧
      f'.rest = c1Prev.rest ∧
      (∀ k, aget (f'.bookmarks.getD []) k =
        if k ∈ ["a"] then bkm c1St k else aget (c1Prev.bookmarks.getD []) k)) ∧
    (∃ S R, flush_streams c1Streams c1Rc cfgDefault (some c1St) (some c1Prev) none =
        .ok (S, R, some c1St)) :=
  c1_flush_checkpoint c1Streams c1Rc cfgDefault c1St c1Prev ["a"]
    (by decide) (by decide) (by decide) (by decide) (by decide)

/-- C10: with no STATE observed, the loop's latest state and checkpoint stay
absent and nothing is emitted; a batch-size flush restricted to one stream
(flush_all_streams disabled) then aborts the run with the AttributeError
raised when flush_streams consults the absent state's bookmarks, whereas an
unrestricted flush completes with an absent checkpoint, which emit_state never
writes. -/
theorem c10_flush_without_state :
    (∀ cfg msgs, (∀ m ∈ msgs, m.isState = false) → (runMsgs cfg msgs).2 = none →
      (runMsgs cfg msgs).1.state = none ∧ (runMsgs cfg msgs).1.flushed_state = none ∧
      (runMsgs cfg msgs).1.emitted = []) ∧
    (∀ streams rc cfg prev fs, fs ≠ [] →
      (∀ s ∈ fs, (aget streams s).isSome ∧ (aget rc s).isSome) →
      flush_streams streams rc cfg none prev (some fs) =
        .error "AttributeError: NoneType object has no attribute get") ∧
    (∀ streams rc cfg, (∀ s ∈ streams.map Prod.fst, (aget rc s).isSome) →
      ∃ S R, flush_streams streams rc cfg none none none = .ok (S, R, none)) ∧
    (∀ cfg s stream pkRaw payload tot rcv,
      cfg.flush_all_streams = false → s.state = none → stream ∈ s.schemas →
      aget s.total_row_count stream = some tot → aget s.row_count stream = some rcv →
      (if (aget ((aget (if (aget s.records_to_load stream).isSome then s.records_to_load
          else aset s.records_to_load stream []) stream).getD [])
          (if pkRaw = "" then "RID-" ++ toString tot else pkRaw)).isNone
        then rcv + 1 else rcv) ≥ cfg.batch_size_rows.getD DEFAULT_BATCH_SIZE_ROWS →
      (step cfg s (Msg.record stream pkRaw payload)).2 =
        some "AttributeError: NoneType object has no attribute get") ∧
    emit_state none = [] := by
  refine ⟨fun cfg msgs hns hok => runMsgs_no_state cfg msgs hns hok,
    fun streams rc cfg prev fs hfs hmem =>
      flush_streams_no_state_subset streams rc cfg prev fs hfs hmem,
    fun streams rc cfg hmem => flush_streams_no_state_all streams rc cfg hmem,
    ?_, rfl⟩
  intro cfg s stream pkRaw payload tot rcv hfa hst hsch htot hrc htrig
  simp only [step]
  rw [stepRecord_eq cfg s stream pkRaw payload tot rcv hsch htot hrc]
  exact stepRecordCore_no_state_abort cfg s stream pkRaw payload tot rcv
    _ _ _ _ _ rfl rfl rfl rfl rfl htrig hfa hst (by rw [hrc]; rfl)

theorem c10_flush_without_state_witness :
    ((runMsgs cfgBatch10 [Msg.schema "A" (objNode [("id", intNode)]) ["id"],
        Msg.record "A" "1" 7]).1.state = none ∧
      (runMsgs cfgBatch10 [Msg.schema "A" (objNode [("id", intNode)]) ["id"],
        Msg.record "A" "1" 7]).1.flushed_state = none ∧
      (runMsgs cfgBatch10 [Msg.schema "A" (objNode [("id", intNode)]) ["id"],
        Msg.record "A" "1" 7]).1.emitted = []) ∧
    (flush_streams [("a", [("p", 1)])] [("a", 1)] cfgDefault none none (some ["a"]) =
      .error "AttributeError: NoneType object has no attribute get") ∧
    (∃ S R, flush_streams [("a", [("p", 1)])] [("a", 1)] cfgDefault none none none =
      .ok (S, R, none)) ∧
    ((step cfgBatch1
        (runMsgs cfgBatch1 [Msg.schema "A" (objNode [("id", intNode)]) ["id"]]).1
        (Msg.record "A" "1" 7)).2 =
      some "AttributeError: NoneType object has no attribute get") ∧
    emit_state none = [] := by
  refine ⟨c10_flush_without_state.1 cfgBatch10 _ (by simp [Msg.isState]) (by decide),
    c10_flush_without_state.2.1 [("a", [("p", 1)])] [("a", 1)] cfgDefault none ["a"]
      (by decide) (by decide),
    c10_flush_without_state.2.2.1 [("a", [("p", 1)])] [("a", 1)] cfgDefault (by decide),
    ?_, c10_flush_without_state.2.2.2.2⟩
  exact c10_flush_without_state.2.2.2.1 cfgBatch1
    (runMsgs cfgBatch1 [Msg.schema "A" (objNode [("id", intNode)]) ["id"]]).1
    "A" "1" 7 0 0 rfl (by decide) (by decide) (by decide) (by decide) (by decide)

/-! ## Chunking and ceiling arithmetic lemmas -/

theorem ceiling_division_pos_eq (n d : Nat) (hn : 0 < n) (hd : 0 < d) :
    ceiling_division n d = ((n + d - 1) / d : Nat) := by
  obtain ⟨m, rfl⟩ : ∃ m, n = m + 1 := ⟨n - 1, by omega⟩
  obtain ⟨k, rfl⟩ : ∃ k, d = k + 1 := ⟨d - 1, by omega⟩
  have h2 : (-(((k : Nat) + 1 : Nat) : Int)) = Int.negSucc k := rfl
  unfold ceiling_division
  rw [h2]
  have h3 : Int.fdiv (Int.ofNat (m + 1)) (Int.negSucc k) = Int.negSucc (m / (k + 1)) := rfl
  have h4 : ((m + 1 : Nat) : Int) = Int.ofNat (m + 1) := rfl
  rw [h4, h3]
  have h5 : m + 1 + (k + 1) - 1 = m + (k + 1) := by omega
  rw [h5, Nat.add_div_right m (Nat.succ_pos k)]
  rfl

theorem ceiling_division_bracket (n d : Nat) (hn : 0 < n) (hd : 0 < d) :
    n ≤ d * (ceiling_division n d).toNat ∧ d * (ceiling_division n d).toNat < n + d := by
  rw [ceiling_division_pos_eq n d hn hd]
  have htn : ((((n + d - 1) / d : Nat) : Int)).toNat = (n + d - 1) / d := Int.toNat_natCast _
  rw [htn]
  have hdm := Nat.div_add_mod (n + d - 1) d
  have hlt : (n + d - 1) % d < d := Nat.mod_lt _ hd
  omega

theorem chunkFuel_flatten {α : Type} (size : Nat) (hs : 0 < size) :
    ∀ (fuel : Nat) (l : List α), l.length ≤ fuel → (chunkFuel size fuel l).flatten = l := by
  intro fuel
  induction fuel with
  | zero =>
    intro l hl
    cases l with
    | nil => rfl
    | cons a as => simp at hl
  | succ f ih =>
    intro l hl
    cases l with
    | nil => rfl
    | cons a as =>
      show (((a :: as).take size) :: chunkFuel size f ((a :: as).drop size)).flatten = a :: as
      rw [List.flatten_cons, ih ((a :: as).drop size)
        (by simp only [List.length_drop, List.length_cons] at hl ⊢; omega)]
      exact List.take_append_drop size (a :: as)

theorem chunkFuel_ne_nil {α : Type} (size fuel : Nat) (l : List α) (hl : l ≠ [])
    (hf : 0 < fuel) : chunkFuel size fuel l ≠ [] := by
  cases l with
  | nil => exact absurd rfl hl
  | cons a as =>
    cases fuel with
    | zero => simp at hf
    | succ f => simp [chunkFuel]

theorem chunkFuel_chunks {α : Type} (size : Nat) (hs : 0 < size) :
    ∀ (fuel : Nat) (l : List α), l.length ≤ fuel →
      ∀ c ∈ chunkFuel size fuel l, c ≠ [] ∧ c.length ≤ size := by
  intro fuel
  induction fuel with
  | zero =>
    intro l hl c hc
    cases l with
    | nil => simp [chunkFuel] at hc
    | cons a as => simp at hl
  | succ f ih =>
    intro l hl c hc
    cases l with
    | nil => simp [chunkFuel] at hc
    | cons a as =>
      have hch : chunkFuel size (f + 1) (a :: as) =
          ((a :: as).take size) :: chunkFuel size f ((a :: as).drop size) := rfl
      rw [hch] at hc
      rcases List.mem_cons.1 hc with hc0 | hcr
      · subst hc0
        constructor
        · cases size with
          | zero => simp at hs
          | succ z => simp [List.take]
        · rw [List.length_take]
          exact min_le_left _ _
      · exact ih ((a :: as).drop size)
          (by simp only [List.length_drop, List.length_cons] at hl ⊢; omega) c hcr

theorem chunkFuel_dropLast {α : Type} (size : Nat) (hs : 0 < size) :
    ∀ (fuel : Nat) (l : List α), l.length ≤ fuel →
      ∀ c ∈ (chunkFuel size fuel l).dropLast, c.length = size := by
  intro fuel
  induction fuel with
  | zero =>
    intro l hl c hc
    cases l with
    | nil => simp [chunkFuel] at hc
    | cons a as => simp at hl
  | succ f ih =>
    intro l hl c hc
    cases l with
    | nil => simp [chunkFuel] at hc
    | cons a as =>
      have hch : chunkFuel size (f + 1) (a :: as) =
          ((a :: as).take size) :: chunkFuel size f ((a :: as).drop size) := rfl
      rw [hch] at hc
      cases hdrop : (a :: as).drop size with
      | nil =>
        rw [hdrop] at hc
        have hrest : chunkFuel size f ([] : List α) = [] := by
          cases f <;> rfl
        rw [hrest] at hc
        simp at hc
      | cons d ds =>
        have hdl : (a :: as).length - size = ds.length + 1 := by
          have hcon := congrArg List.length hdrop
          rw [List.length_drop] at hcon
          rw [hcon]
          rfl
        have hlen : size + 1 ≤ (a :: as).length := by omega
        have hfpos : 0 < f := by
          simp only [List.length_cons] at hl hlen
          omega
        have hrne : chunkFuel size f ((a :: as).drop size) ≠ [] := by
          rw [hdrop]
          exact chunkFuel_ne_nil size f (d :: ds) (by simp) hfpos
        rw [List.dropLast_cons_of_ne_nil hrne] at hc
        rcases List.mem_cons.1 hc with hc0 | hcr
        · subst hc0
          rw [List.length_take]
          exact min_eq_left (by omega)
        · exact ih ((a :: as).drop size)
            (by simp only [List.length_drop, List.length_cons] at hl ⊢; omega) c hcr

/-- C7 (amended): when parallelism is configured as 0 (auto), the worker-pool
size is the number of keys of the buffered-streams dict capped at
max_parallelism (default 16) — it ignores filter_streams; a nonzero configured
parallelism is used as-is. -/
theorem c7_auto_parallelism (cfg : Config) (streams : StreamsDict) :
    (cfg.parallelism.getD DEFAULT_PARALLELISM = 0 →
      flush_parallelism cfg streams =
        min streams.length (cfg.max_parallelism.getD DEFAULT_MAX_PARALLELISM)) ∧
    (∀ p, cfg.parallelism = some p → p ≠ 0 → flush_parallelism cfg streams = p) ∧
    DEFAULT_MAX_PARALLELISM = 16 := by
  refine ⟨?_, ?_, rfl⟩
  · intro h0
    unfold flush_parallelism
    rw [if_pos h0]
    by_cases hgt : streams.length > cfg.max_parallelism.getD DEFAULT_MAX_PARALLELISM
    · rw [if_pos hgt]
      exact (min_eq_right (le_of_lt hgt)).symm
    · rw [if_neg hgt]
      exact (min_eq_left (by omega)).symm
  · intro p hp hpne
    unfold flush_parallelism
    rw [hp]
    rw [if_neg (by simpa using hpne)]
    exact Option.getD_some

/-- C7 counterexample: with two buffered streams and a filter selecting only
one, the automatic pool size is 2 (the number of buffered streams), not 1
(the number of streams actually flushed) as the claim states. -/
theorem c7_counterexample :
    flush_parallelism cfgDefault [("a", [("p", 1)]), ("b", [("q", 2)])] = 2 ∧
    (streams_to_flush [("a", [("p", 1)]), ("b", [("q", 2)])] (some ["a"])).length = 1 ∧
    (2 : Nat) ≠ 1 := by decide

theorem c7_auto_parallelism_witness :
    flush_parallelism cfgDefault [("a", [("p", 1)]), ("b", [("q", 2)])] = min 2 16 ∧
    flush_parallelism ⟨none, some 5, none, false, false, false, none, none, none⟩
      [("a", [("p", 1)]), ("b", [("q", 2)])] = 5 :=
  ⟨(c7_auto_parallelism cfgDefault [("a", [("p", 1)]), ("b", [("q", 2)])]).1 rfl,
   (c7_auto_parallelism ⟨none, some 5, none, false, false, false, none, none, none⟩
      [("a", [("p", 1)]), ("b", [("q", 2)])]).2.1 5 rfl (by decide)⟩

/-- C8: for a nonempty record list and a positive slice count, chunking at
ceiling_division(N, slices) yields a contiguous order-preserving partition
(concatenating the chunks restores the list, so every record lands in exactly
one chunk), all chunks except possibly the last have exactly the chunk size
and none is empty or larger; and ceiling_division computes the integer
ceiling of n / d for positive n and d. -/
theorem c8_chunk_partition :
    (∀ (l : List Nat) (s : Nat), l ≠ [] → 0 < s →
      (chunk_iterable l (ceiling_division l.length s).toNat).flatten = l ∧
      (∀ c ∈ (chunk_iterable l (ceiling_division l.length s).toNat).dropLast,
        c.length = (ceiling_division l.length s).toNat) ∧
      (∀ c ∈ chunk_iterable l (ceiling_division l.length s).toNat,
        c ≠ [] ∧ c.length ≤ (ceiling_division l.length s).toNat)) ∧
    (∀ n d : Nat, 0 < n → 0 < d →
      ceiling_division n d = ((n + d - 1) / d : Nat) ∧
      n ≤ d * (ceiling_division n d).toNat ∧ d * (ceiling_division n d).toNat < n + d) := by
  constructor
  · intro l s hne hs
    have hlen : 0 < l.length := List.length_pos.2 hne
    have hk : 0 < (ceiling_division l.length s).toNat := by
      rcases ceiling_division_bracket l.length s hlen hs with ⟨h1, _⟩
      by_contra hz
      push_neg at hz
      interval_cases h : (ceiling_division (l.length : Int) (s : Int)).toNat
      · omega
    have hne0 : (ceiling_division l.length s).toNat ≠ 0 := by omega
    have hch : chunk_iterable l (ceiling_division l.length s).toNat =
        chunkFuel (ceiling_division l.length s).toNat l.length l := by
      unfold chunk_iterable
      rw [if_neg hne0]
    rw [hch]
    exact ⟨chunkFuel_flatten _ hk l.length l le_rfl,
      chunkFuel_dropLast _ hk l.length l le_rfl,
      chunkFuel_chunks _ hk l.length l le_rfl⟩
  · intro n d hn hd
    exact ⟨ceiling_division_pos_eq n d hn hd, ceiling_division_bracket n d hn hd⟩

theorem c8_chunk_partition_witness :
    ((chunk_iterable [1, 2, 3, 4, 5] (ceiling_division 5 2).toNat).flatten = [1, 2, 3, 4, 5] ∧
      (∀ c ∈ (chunk_iterable [1, 2, 3, 4, 5] (ceiling_division 5 2).toNat).dropLast,
        c.length = (ceiling_division 5 2).toNat) ∧
      (∀ c ∈ chunk_iterable [1, 2, 3, 4, 5] (ceiling_division 5 2).toNat,
        c ≠ [] ∧ c.length ≤ (ceiling_division 5 2).toNat)) ∧
    (ceiling_division 5 2 = ((5 + 2 - 1) / 2 : Nat) ∧
      5 ≤ 2 * (ceiling_division 5 2).toNat ∧ 2 * (ceiling_division 5 2).toNat < 5 + 2) :=
  ⟨by
    have h := c8_chunk_partition.1 [1, 2, 3, 4, 5] 2 (by decide) (by decide)
    simpa using h,
   c8_chunk_partition.2 5 2 (by decide) (by decide)⟩

/-! ## C6: flush_records cleanup behavior -/

theorem flush_records_chunks_pos (records : Buf) (slices : Option Nat) (hne : records ≠ []) :
    (flush_records_chunks records slices).length ≠ 0 := by
  unfold flush_records_chunks
  set s' := flush_records_slices slices with hs'
  have hs1 : 0 < s' := by
    rw [hs']
    unfold flush_records_slices
    cases slices with
    | none => decide
    | some n => cases n with
      | zero => decide
      | succ m => exact Nat.succ_pos m
  have hlen : 0 < records.length := List.length_pos.2 hne
  have hk : 0 < (ceiling_division records.length s').toNat := by
    rcases ceiling_division_bracket records.length s' hlen hs1 with ⟨h1, _⟩
    by_contra hz
    push_neg at hz
    have hz0 : (ceiling_division (records.length : Int) (s' : Int)).toNat = 0 := by omega
    rw [hz0] at h1
    omega
  have hmapne : records.map Prod.snd ≠ [] := by
    cases records with
    | nil => exact absurd rfl hne
    | cons p t => simp
  unfold chunk_iterable
  rw [if_neg (by omega)]
  intro hcon
  apply chunkFuel_ne_nil ((ceiling_division records.length s').toNat)
    (records.map Prod.snd).length (records.map Prod.snd) hmapne (List.length_pos.2 hmapne)
  exact List.length_eq_zero.1 hcon

theorem flush_records_true_eq (records : Buf) (slices : Option Nat)
    (hn : (flush_records_chunks records slices).length ≠ 0) :
    flush_records records slices true =
      (((List.range (flush_records_chunks records slices).length).flatMap
          fun i => [FREvent.createLocal (i + 1), FREvent.uploadS3 (i + 1)]) ++ [FREvent.copyLoad]
        ++ (List.range (flush_records_chunks records slices).length).map
          (fun i => FREvent.removeLocal (i + 1))
        ++ (List.range (flush_records_chunks records slices).length).map
          (fun i => FREvent.deleteS3 (i + 1)), .ok ()) := by
  unfold flush_records
  rw [if_neg hn]
  rfl

theorem flush_records_false_eq (records : Buf) (slices : Option Nat)
    (hn : (flush_records_chunks records slices).length ≠ 0) :
    flush_records records slices false =
      ((List.range (flush_records_chunks records slices).length).flatMap
        fun i => [FREvent.createLocal (i + 1), FREvent.uploadS3 (i + 1)],
       .error "psycopg2 error in load_csv") := by
  unfold flush_records
  rw [if_neg hn]
  rfl

/-- C6 (amended): flush_records deletes the local temporary chunk files and
the uploaded object-storage keys only when the staged warehouse load
succeeds; when load_csv fails the function aborts before any cleanup, leaving
both the local files and the uploaded objects behind. -/
theorem c6_cleanup (records : Buf) (slices : Option Nat) (hne : records ≠ []) :
    ((flush_records records slices true).2 = .ok () ∧
      (∀ i, FREvent.createLocal i ∈ (flush_records records slices true).1 →
        FREvent.removeLocal i ∈ (flush_records records slices true).1) ∧
      (∀ i, FREvent.uploadS3 i ∈ (flush_records records slices true).1 →
        FREvent.deleteS3 i ∈ (flush_records records slices true).1)) ∧
    ((∃ e, (flush_records records slices false).2 = .error e) ∧
      (∀ i, FREvent.removeLocal i ∉ (flush_records records slices false).1) ∧
      (∀ i, FREvent.deleteS3 i ∉ (flush_records records slices false).1) ∧
      FREvent.createLocal 1 ∈ (flush_records records slices false).1 ∧
      FREvent.uploadS3 1 ∈ (flush_records records slices false).1) := by
  have hn := flush_records_chunks_pos records slices hne
  rw [flush_records_true_eq records slices hn, flush_records_false_eq records slices hn]
  have hnpos : 0 < (flush_records_chunks records slices).length := by omega
  constructor
  · refine ⟨rfl, ?_, ?_⟩
    · intro i hi
      simp only [List.mem_append, List.mem_flatMap, List.mem_range, List.mem_map,
        List.mem_cons, List.mem_singleton, List.not_mem_nil, or_false] at hi ⊢
      rcases hi with ((⟨j, hj, hji⟩ | h1) | h2) | ⟨j, hj, hji⟩
      · rcases hji with h | h
        · cases h
          exact Or.inl (Or.inr ⟨j, hj, rfl⟩)
        · cases h
      · cases h1
      · rcases h2 with ⟨j, hj, hji⟩
        cases hji
      · cases hji
    · intro i hi
      simp only [List.mem_append, List.mem_flatMap, List.mem_range, List.mem_map,
        List.mem_cons, List.mem_singleton, List.not_mem_nil, or_false] at hi ⊢
      rcases hi with ((⟨j, hj, hji⟩ | h1) | h2) | ⟨j, hj, hji⟩
      · rcases hji with h | h
        · cases h
        · cases h
          exact Or.inr ⟨j, hj, rfl⟩
      · cases h1
      · rcases h2 with ⟨j, hj, hji⟩
        cases hji
      · cases hji
  · refine ⟨⟨"psycopg2 error in load_csv", rfl⟩, ?_, ?_, ?_, ?_⟩
    · intro i hi
      simp only [List.mem_flatMap, List.mem_range, List.mem_cons, List.mem_singleton,
        List.not_mem_nil, or_false] at hi
      rcases hi with ⟨j, hj, hji⟩
      rcases hji with h | h <;> cases h
    · intro i hi
      simp only [List.mem_flatMap, List.mem_range, List.mem_cons, List.mem_singleton,
        List.not_mem_nil, or_false] at hi
      rcases hi with ⟨j, hj, hji⟩
      rcases hji with h | h <;> cases h
    · simp only [List.mem_flatMap, List.mem_range, List.mem_cons, List.mem_singleton,
        List.not_mem_nil, or_false]
      exact ⟨0, hnpos, Or.inl rfl⟩
    · simp only [List.mem_flatMap, List.mem_range, List.mem_cons, List.mem_singleton,
        List.not_mem_nil, or_false]
      exact ⟨0, hnpos, Or.inr rfl⟩

/-- C6 counterexample: one buffered record, default slicing, failing load: the
local chunk file is created but never removed, contradicting the claim that
local temporary files are deleted regardless of success or failure. -/
theorem c6_counterexample :
    flush_records [("p", 7)] none false =
      ([FREvent.createLocal 1, FREvent.uploadS3 1], .error "psycopg2 error in load_csv") ∧
    FREvent.createLocal 1 ∈ (flush_records [("p", 7)] none false).1 ∧
    FREvent.removeLocal 1 ∉ (flush_records [("p", 7)] none false).1 := by
  refine ⟨rfl, by decide, by decide⟩

theorem c6_cleanup_witness :
    ((flush_records [("p", 7)] none true).2 = .ok () ∧
      (∀ i, FREvent.createLocal i ∈ (flush_records [("p", 7)] none true).1 →
        FREvent.removeLocal i ∈ (flush_records [("p", 7)] none true).1) ∧
      (∀ i, FREvent.uploadS3 i ∈ (flush_records [("p", 7)] none true).1 →
        FREvent.deleteS3 i ∈ (flush_records [("p", 7)] none true).1)) ∧
    ((∃ e, (flush_records [("p", 7)] none false).2 = .error e) ∧
      (∀ i, FREvent.removeLocal i ∉ (flush_records [("p", 7)] none false).1) ∧
      (∀ i, FREvent.deleteS3 i ∉ (flush_records [("p", 7)] none false).1) ∧
      FREvent.createLocal 1 ∈ (flush_records [("p", 7)] none false).1 ∧
      FREvent.uploadS3 1 ∈ (flush_records [("p", 7)] none false).1) :=
  c6_cleanup [("p", 7)] none (by decide)

/-! ## C4: column reconciliation -/

theorem strAppendCancel (a b c : String) (h : a ++ b = a ++ c) : b = c := by
  have hd : (a ++ b).data = (a ++ c).data := congrArg String.data h
  rw [String.data_append, String.data_append] at hd
  have hbc : b.data = c.data := List.append_cancel_left hd
  cases b with
  | mk lb =>
    cases c with
    | mk lc =>
      simp only at hbc
      rw [hbc]

theorem mem_columns_to_replace_iff (flat : List (String × SNode))
    (cdict : List (String × LiveColumn)) (pr : String × String) :
    pr ∈ columns_to_replace flat cdict ↔
      ∃ kv ∈ flat, ∃ col, aget cdict (strLower kv.1) = some col ∧
        strLower col.data_type ≠ strLower (column_type kv.2 false) ∧
        strLower (column_type kv.2 true) ≠ "timestamp without time zone" ∧
        pr = (safe_column_name kv.1, column_clause kv.1 kv.2) := by
  unfold columns_to_replace
  rw [List.mem_filterMap]
  constructor
  · rintro ⟨kv, hkv, hf⟩
    refine ⟨kv, hkv, ?_⟩
    cases hcd : aget cdict (strLower kv.1) with
    | none => rw [hcd] at hf; cases hf
    | some col =>
      rw [hcd] at hf
      have hf' : (if strLower col.data_type ≠ strLower (column_type kv.2 false) ∧
          strLower (column_type kv.2 true) ≠ "timestamp without time zone" then
          some (safe_column_name kv.1, column_clause kv.1 kv.2) else none) = some pr := hf
      by_cases hcond : strLower col.data_type ≠ strLower (column_type kv.2 false) ∧
          strLower (column_type kv.2 true) ≠ "timestamp without time zone"
      · rw [if_pos hcond] at hf'
        injection hf' with hf'
        exact ⟨col, rfl, hcond.1, hcond.2, hf'.symm⟩
      · rw [if_neg hcond] at hf'
        cases hf'
  · rintro ⟨kv, hkv, col, hcd, h1, h2, hpr⟩
    refine ⟨kv, hkv, ?_⟩
    rw [hcd]
    show (if strLower col.data_type ≠ strLower (column_type kv.2 false) ∧
        strLower (column_type kv.2 true) ≠ "timestamp without time zone" then
        some (safe_column_name kv.1, column_clause kv.1 kv.2) else none) = some pr
    rw [if_pos ⟨h1, h2⟩, hpr]

/-- C4 (amended): a column present in both the desired flattened schema and
the live table with a mismatching warehouse type is versioned and re-added,
except exactly when the desired type is 'timestamp without time zone' — the
existing column's type is not consulted by the exception.  In particular an
existing 'character varying(100)' column with desired 'bigint' is versioned
and re-added, and an existing 'timestamp with time zone' column with desired
'timestamp without time zone' triggers no action. -/
theorem c4_column_replacement :
    (∀ flat cdict name p col, (name, p) ∈ flat →
      aget cdict (strLower name) = some col →
      strLower col.data_type ≠ strLower (column_type p false) →
      strLower (column_type p true) ≠ "timestamp without time zone" →
      (safe_column_name name, column_clause name p) ∈ columns_to_replace flat cdict) ∧
    (∀ flat cdict name p, strLower (column_type p true) = "timestamp without time zone" →
      (safe_column_name name, column_clause name p) ∉ columns_to_replace flat cdict) ∧
    update_columns [("a", dtNode)] [⟨"a", "timestamp with time zone"⟩] = [] ∧
    update_columns [("a", intNode)] [⟨"a", "character varying(100)"⟩] =
      [ColAction.version "\"A\"", ColAction.add "\"A\" bigint"] ∧
    strLower "timestamp with time zone" ≠ strLower (column_type dtNode false) ∧
    strLower "character varying(100)" ≠ strLower (column_type intNode false) := by
  refine ⟨?_, ?_, rfl, rfl, by decide, by decide⟩
  · intro flat cdict name p col hmem hcd h1 h2
    rw [mem_columns_to_replace_iff]
    exact ⟨(name, p), hmem, col, hcd, h1, h2, rfl⟩
  · intro flat cdict name p htz hmem
    rw [mem_columns_to_replace_iff] at hmem
    rcases hmem with ⟨kv, _, col, _, _, h2, hpr⟩
    have hsafe : safe_column_name name = safe_column_name kv.1 := congrArg Prod.fst hpr
    have hcl : column_clause name p = column_clause kv.1 kv.2 := congrArg Prod.snd hpr
    unfold column_clause at hcl
    rw [← hsafe] at hcl
    rw [String.append_assoc, String.append_assoc] at hcl
    have hct : column_type p true = column_type kv.2 true :=
      strAppendCancel " " _ _ (strAppendCancel (safe_column_name name) _ _ hcl)
    rw [hct] at htz
    exact h2 htz

/-- C4 counterexample: existing column type 'boolean' (not any timestamp
variant), desired type 'timestamp without time zone': the types mismatch,
yet no version/add action is taken — the exception fires on the desired type
alone, not only when the existing column is timestamp-with-timezone-like as
the claim states. -/
theorem c4_counterexample :
    update_columns [("a", dtNode)] [⟨"a", "boolean"⟩] = [] ∧
    columns_to_replace [("a", dtNode)] (columns_dict [⟨"a", "boolean"⟩]) = [] ∧
    strLower "boolean" ≠ strLower (column_type dtNode false) ∧
    charsContain "boolean".data "timestamp".data = false :=
  ⟨rfl, rfl, by decide, by decide⟩

theorem c4_column_replacement_witness :
    (safe_column_name "a", column_clause "a" intNode) ∈
      columns_to_replace [("a", intNode)] (columns_dict [⟨"a", "character varying(100)"⟩]) ∧
    (safe_column_name "a", column_clause "a" dtNode) ∉
      columns_to_replace [("a", dtNode)] (columns_dict [⟨"a", "timestamp with time zone"⟩]) :=
  ⟨c4_column_replacement.1 [("a", intNode)] (columns_dict [⟨"a", "character varying(100)"⟩])
      "a" intNode ⟨"a", "character varying(100)"⟩ (List.mem_cons_self _ _) rfl
      (by decide) (by decide),
   c4_column_replacement.2.1 [("a", dtNode)]
      (columns_dict [⟨"a", "timestamp with time zone"⟩]) "a" dtNode (by decide)⟩

/-! ## Lemmas: the sort order of flatten_schema -/

theorem strLeB_refl (a : List Char) : strLeB a a = true := by
  induction a with
  | nil => rfl
  | cons x xs ih => simp [strLeB, lt_irrefl, ih]

theorem strLeB_cons_iff (x y : Char) (xs ys : List Char) :
    strLeB (x :: xs) (y :: ys) = true ↔
      (x < y ∨ (¬x < y ∧ ¬y < x ∧ strLeB xs ys = true)) := by
  by_cases h1 : x < y
  · simp [strLeB, h1]
  · by_cases h2 : y < x
    · simp [strLeB, h1, h2]
    · simp [strLeB, h1, h2]

theorem strLeB_total (a b : List Char) : strLeB a b = true ∨ strLeB b a = true := by
  induction a generalizing b with
  | nil => exact Or.inl rfl
  | cons x xs ih =>
    cases b with
    | nil => exact Or.inr rfl
    | cons y ys =>
      rcases lt_trichotomy x y with h | h | h
      · left
        rw [strLeB_cons_iff]
        exact Or.inl h
      · subst h
        rcases ih ys with h1 | h1
        · left
          rw [strLeB_cons_iff]
          exact Or.inr ⟨lt_irrefl x, lt_irrefl x, h1⟩
        · right
          rw [strLeB_cons_iff]
          exact Or.inr ⟨lt_irrefl x, lt_irrefl x, h1⟩
      · right
        rw [strLeB_cons_iff]
        exact Or.inl h

theorem strLeB_trans (a b c : List Char) (h1 : strLeB a b = true) (h2 : strLeB b c = true) :
    strLeB a c = true := by
  induction a generalizing b c with
  | nil => rfl
  | cons x xs ih =>
    cases b with
    | nil => simp [strLeB] at h1
    | cons y ys =>
      cases c with
      | nil => simp [strLeB] at h2
      | cons z zs =>
        rw [strLeB_cons_iff] at h1 h2 ⊢
        rcases h1 with h1 | ⟨hn1, hn2, h1⟩
        · rcases h2 with h2 | ⟨hm1, hm2, h2⟩
          · exact Or.inl (lt_trans h1 h2)
          · have hyz : y = z := le_antisymm (not_lt.1 hm2) (not_lt.1 hm1)
            subst hyz
            exact Or.inl h1
        · have hxy : x = y := le_antisymm (not_lt.1 hn2) (not_lt.1 hn1)
          subst hxy
          rcases h2 with h2 | ⟨hm1, hm2, h2⟩
          · exact Or.inl h2
          · exact Or.inr ⟨hm1, hm2, ih ys zs h1 h2⟩

theorem strLeB_antisymm (a b : List Char) (h1 : strLeB a b = true) (h2 : strLeB b a = true) :
    a = b := by
  induction a generalizing b with
  | nil =>
    cases b with
    | nil => rfl
    | cons y ys => simp [strLeB] at h2
  | cons x xs ih =>
    cases b with
    | nil => simp [strLeB] at h1
    | cons y ys =>
      rw [strLeB_cons_iff] at h1 h2
      rcases h1 with h1 | ⟨hn1, hn2, h1⟩
      · rcases h2 with h2 | ⟨hm1, hm2, h2⟩
        · exact absurd h2 (lt_asymm h1)
        · exact absurd h1 hm2
      · have hxy : x = y := le_antisymm (not_lt.1 hn2) (not_lt.1 hn1)
        subst hxy
        rcases h2 with h2 | ⟨hm1, hm2, h2⟩
        · exact absurd h2 hn1
        · rw [ih ys h1 h2]

theorem strDataEq (a b : String) (h : a.data = b.data) : a = b := by
  cases a with
  | mk la =>
    cases b with
    | mk lb =>
      simp only at h
      rw [h]

instance : IsTotal (String × SNode) pairLe :=
  ⟨fun a b => strLeB_total a.1.data b.1.data⟩

instance : IsTrans (String × SNode) pairLe :=
  ⟨fun a b c => strLeB_trans a.1.data b.1.data c.1.data⟩

/-- A sorted item list with a duplicated key has an adjacent duplicate: the
condition under which flatten_schema's groupby check raises. -/
theorem sorted_dup_adj : ∀ (l : List (String × SNode)), List.Sorted pairLe l →
    ¬((l.map Prod.fst).Nodup) → (findAdjDup l).isSome := by
  intro l
  induction l with
  | nil =>
    intro _ hn
    exact absurd List.nodup_nil hn
  | cons a t ih =>
    intro hs hn
    cases t with
    | nil => simp at hn
    | cons b u =>
      by_cases hab : a.1 = b.1
      · simp [findAdjDup, hab]
      · have hfad : findAdjDup (a :: b :: u) = findAdjDup (b :: u) := by
          simp [findAdjDup, hab]
        rw [hfad]
        apply ih hs.of_cons
        intro hnd
        apply hn
        simp only [List.map_cons, List.nodup_cons] at hnd ⊢
        refine ⟨?_, hnd⟩
        intro hmem
        rcases List.mem_cons.1 hmem with hcb | hcu0
        · exact hab hcb
        · rcases List.mem_map.1 hcu0 with ⟨c, hcu, hceq⟩
          have h1 : pairLe a b := (List.sorted_cons.1 hs).1 b (List.mem_cons_self b u)
          have h2 : pairLe b c := (List.sorted_cons.1 hs.of_cons).1 c hcu
          have h3 : strLeB c.1.data a.1.data = true := by
            rw [hceq]
            exact strLeB_refl a.1.data
          have h4 : strLeB b.1.data a.1.data = true := strLeB_trans _ _ _ h2 h3
          exact hab (strDataEq a.1 b.1 (strLeB_antisymm _ _ h1 h4))

/-! ## Lemmas: flatten_schema structure -/

theorem flatten_schema_eq (d : SNode) (n : Nat) :
    flatten_schema d n = flattenStep (flattenRecOf n) "__" d [] := by
  cases n <;> rfl

theorem flattenStep_props (rec : Option FlattenRec) (sep : String) (d : SNode)
    (pk : List String) (props : List (String × SNode)) (h : d.properties = some props) :
    flattenStep rec sep d pk =
      match flattenProps rec sep pk props with
      | .error e => .error e
      | .ok items =>
        match findAdjDup (List.insertionSort pairLe items) with
        | some dup => .error ("Duplicate column name produced in schema: " ++ dup)
        | none => .ok (List.insertionSort pairLe items) := by
  unfold flattenStep
  rw [h]

theorem flattenProps_cons (rec : Option FlattenRec) (sep : String) (pk : List String)
    (k : String) (v : SNode) (rest : List (String × SNode)) :
    flattenProps rec sep pk ((k, v) :: rest) =
      match propContrib rec sep pk k v with
      | .error e => .error e
      | .ok c =>
        match flattenProps rec sep pk rest with
        | .error e => .error e
        | .ok r => .ok (c ++ r) := rfl

theorem flattenProps_mem (rec : Option FlattenRec) (sep : String) (pk : List String) :
    ∀ (props : List (String × SNode)) (items : List (String × SNode)),
      flattenProps rec sep pk props = .ok items →
      ∀ kv ∈ props, ∃ c, propContrib rec sep pk kv.1 kv.2 = .ok c ∧ ∀ x ∈ c, x ∈ items := by
  intro props
  induction props with
  | nil =>
    intro items _ kv hkv
    simp at hkv
  | cons p rest ih =>
    rcases p with ⟨k, v⟩
    intro items h kv hkv
    rw [flattenProps_cons] at h
    cases hpc : propContrib rec sep pk k v with
    | error e => rw [hpc] at h; cases h
    | ok c =>
      rw [hpc] at h
      cases hfp : flattenProps rec sep pk rest with
      | error e => rw [hfp] at h; cases h
      | ok r =>
        rw [hfp] at h
        injection h with h
        subst h
        rcases List.mem_cons.1 hkv with hkv0 | hkvr
        · subst hkv0
          exact ⟨c, hpc, fun x hx => List.mem_append_left r hx⟩
        · rcases ih r hfp kv hkvr with ⟨c', hc', hsub⟩
          exact ⟨c', hc', fun x hx => List.mem_append_right c (hsub x hx)⟩

theorem propContrib_typed_leaf (rec : Option FlattenRec) (sep : String) (pk : List String)
    (k : String) (v : SNode) (t : JTy) (ht : v.type = some t)
    (hleaf : rec = none ∨ v.properties = none ∨ hasType t "object" = false) :
    propContrib rec sep pk k v = .ok [(flatten_key k pk sep, v)] := by
  unfold propContrib
  rw [ht]
  rcases hleaf with h | h | h
  · subst h
    cases hvp : v.properties <;> rfl
  · rw [h]
    cases rec <;> rfl
  · cases rec with
    | none => cases hvp : v.properties <;> rfl
    | some r =>
      cases hvp : v.properties with
      | none => rfl
      | some props =>
        show (if hasType t "object" then r v (pk ++ [k]) else .ok [(flatten_key k pk sep, v)]) = _
        rw [h]
        rfl

theorem propContrib_untyped_first (rec : Option FlattenRec) (sep : String) (pk : List String)
    (k : String) (v alt0 : SNode) (alts : List SNode) (ty : String)
    (ht : v.type = none) (ha : v.anyOfFirst = some (alt0 :: alts))
    (hty : alt0.type = some (JTy.s ty))
    (hmem : ty = "string" ∨ ty = "array" ∨ ty = "object") :
    propContrib rec sep pk k v = .ok [(flatten_key k pk sep, setNodeType alt0 ["null", ty])] := by
  simp only [propContrib, ht, ha, hty]
  rcases hmem with rfl | rfl | rfl <;> rfl

theorem propContrib_untyped_empty (rec : Option FlattenRec) (sep : String) (pk : List String)
    (k : String) (v : SNode) (ht : v.type = none) (ha : v.anyOfFirst = none) :
    propContrib rec sep pk k v = .ok [] := by
  unfold propContrib
  rw [ht, ha]

/-- Successful flatten output is the sorted permutation of the collected
items, so membership transfers. -/
theorem flatten_schema_ok_mem (d : SNode) (props : List (String × SNode)) (max_level : Nat)
    (out : List (String × SNode)) (hprops : d.properties = some props)
    (hout : flatten_schema d max_level = .ok out) :
    ∃ items, flattenProps (flattenRecOf max_level) "__" [] props = .ok items ∧
      ∀ x ∈ items, x ∈ out := by
  rw [flatten_schema_eq, flattenStep_props _ _ _ _ props hprops] at hout
  cases hfp : flattenProps (flattenRecOf max_level) "__" [] props with
  | error e => rw [hfp] at hout; cases hout
  | ok items =>
    rw [hfp] at hout
    have hout' : (match findAdjDup (List.insertionSort pairLe items) with
        | some dup => Except.error ("Duplicate column name produced in schema: " ++ dup)
        | none => Except.ok (List.insertionSort pairLe items)) = Except.ok out := hout
    cases hfd : findAdjDup (List.insertionSort pairLe items) with
    | some dup => rw [hfd] at hout'; cases hout'
    | none =>
      rw [hfd] at hout'
      injection hout' with hout'
      subst hout'
      exact ⟨items, rfl, fun x hx =>
        ((List.perm_insertionSort pairLe items).mem_iff).2 hx⟩

/-! ## C5 and C9: flatten_schema claims -/

/-- C5: when two source properties flatten to the same column name (the
collected items carry a duplicated key), flatten_schema raises the
duplicate-column ValueError, and a SCHEMA message carrying such a schema
fails at adoption time: the step raises and appends no event — in particular
no schema DDL and no DbSync binding happen for the stream. -/
theorem c5_duplicate_columns :
    (∀ (d : SNode) (props items : List (String × SNode)) (max_level : Nat),
      d.properties = some props →
      flattenProps (flattenRecOf max_level) "__" [] props = .ok items →
      ¬((items.map Prod.fst).Nodup) →
      ∃ dup, flatten_schema d max_level =
        .error ("Duplicate column name produced in schema: " ++ dup)) ∧
    (∀ (cfg : Config) (s : LoaderState) (stream : String) (d : SNode)
        (props items : List (String × SNode)) (key_properties : List String),
      d.properties = some props →
      flattenProps (flattenRecOf (cfg.data_flattening_max_level.getD 0)) "__" [] props = .ok items →
      ¬((items.map Prod.fst).Nodup) →
      cfg.add_metadata_columns = false → cfg.hard_delete = false →
      (aget s.row_count stream).getD 0 = 0 →
      ¬((cfg.primary_key_required.getD true) ∧ key_properties = []) →
      (stepSchema cfg s stream d key_properties).2.isSome ∧
      (stepSchema cfg s stream d key_properties).1.events = s.events) := by
  have main : ∀ (d : SNode) (props items : List (String × SNode)) (max_level : Nat),
      d.properties = some props →
      flattenProps (flattenRecOf max_level) "__" [] props = .ok items →
      ¬((items.map Prod.fst).Nodup) →
      ∃ dup, flatten_schema d max_level =
        .error ("Duplicate column name produced in schema: " ++ dup) := by
    intro d props items max_level hprops hfp hdup
    rw [flatten_schema_eq, flattenStep_props _ _ _ _ props hprops, hfp]
    have hsortdup : ¬(((List.insertionSort pairLe items).map Prod.fst).Nodup) := by
      intro hnd
      apply hdup
      exact (((List.perm_insertionSort pairLe items).map Prod.fst).nodup_iff).1 hnd
    have hadj := sorted_dup_adj _ (List.sorted_insertionSort pairLe items) hsortdup
    cases hfd : findAdjDup (List.insertionSort pairLe items) with
    | none => rw [hfd] at hadj; cases hadj
    | some dup =>
      refine ⟨dup, ?_⟩
      show (match findAdjDup (List.insertionSort pairLe items) with
        | some dup => Except.error ("Duplicate column name produced in schema: " ++ dup)
        | none => Except.ok (List.insertionSort pairLe items)) =
        Except.error ("Duplicate column name produced in schema: " ++ dup)
      rw [hfd]
  refine ⟨main, ?_⟩
  intro cfg s stream d props items key_properties hprops hfp hdup hmeta hhd hrc0 hpk
  rcases main d props items (cfg.data_flattening_max_level.getD 0) hprops hfp hdup with ⟨dup, hferr⟩
  rw [stepSchema_noflush cfg s stream d key_properties _ rfl (by omega)]
  unfold stepSchemaTail
  rw [if_neg hpk]
  have hused : (if cfg.add_metadata_columns || cfg.hard_delete then
      add_metadata_columns_to_schema d else d) = d := by
    rw [hmeta, hhd]
    rfl
  simp only [hused, hferr]
  exact ⟨rfl, trivial⟩

theorem c5_duplicate_columns_witness :
    (∃ dup, flatten_schema c5DupSchema 1 =
      .error ("Duplicate column name produced in schema: " ++ dup)) ∧
    ((stepSchema ⟨none, none, none, false, false, false, none, some 1, none⟩ initLoader
        "A" c5DupSchema ["id"]).2.isSome ∧
      (stepSchema ⟨none, none, none, false, false, false, none, some 1, none⟩ initLoader
        "A" c5DupSchema ["id"]).1.events = initLoader.events) :=
  ⟨c5_duplicate_columns.1 c5DupSchema [("a__b", intNode), ("a", objNode [("b", intNode)])]
      [("a__b", intNode), ("a__b", intNode)] 1 rfl rfl (by decide),
   c5_duplicate_columns.2 ⟨none, none, none, false, false, false, none, some 1, none⟩
      initLoader "A" c5DupSchema [("a__b", intNode), ("a", objNode [("b", intNode)])]
      [("a__b", intNode), ("a__b", intNode)] ["id"] rfl rfl (by decide) rfl rfl rfl
      (by decide)⟩

/-- C9 (amended): a property that is not recursed into and carries a `type`
key is kept as a single flattened leaf unchanged — its declared type is not
widened with null; only a property without a `type` key is handled through
its first alternative: when that alternative's type is the bare string
'string', 'array' or 'object' the alternative is kept with its type widened
to ['null', that type], and a property without a `type` key and no
alternatives contributes nothing. -/
theorem c9_flatten_leaves :
    (∀ (d : SNode) (props out : List (String × SNode)) (max_level : Nat) (k : String)
        (v : SNode) (t : JTy),
      d.properties = some props → flatten_schema d max_level = .ok out →
      (k, v) ∈ props → v.type = some t →
      (flattenRecOf max_level = none ∨ v.properties = none ∨ hasType t "object" = false) →
      (flatten_key k [] "__", v) ∈ out) ∧
    (∀ (d : SNode) (props out : List (String × SNode)) (max_level : Nat) (k : String)
        (v alt0 : SNode) (alts : List SNode) (ty : String),
      d.properties = some props → flatten_schema d max_level = .ok out →
      (k, v) ∈ props → v.type = none → v.anyOfFirst = some (alt0 :: alts) →
      alt0.type = some (JTy.s ty) → (ty = "string" ∨ ty = "array" ∨ ty = "object") →
      (flatten_key k [] "__", setNodeType alt0 ["null", ty]) ∈ out) ∧
    (∀ (rec : Option FlattenRec) (sep : String) (pk : List String) (k : String) (v : SNode),
      v.type = none → v.anyOfFirst = none → propContrib rec sep pk k v = .ok []) := by
  refine ⟨?_, ?_, fun rec sep pk k v ht ha => propContrib_untyped_empty rec sep pk k v ht ha⟩
  · intro d props out max_level k v t hprops hout hkv ht hleaf
    rcases flatten_schema_ok_mem d props max_level out hprops hout with ⟨items, hfp, hsub⟩
    rcases flattenProps_mem _ _ _ props items hfp (k, v) hkv with ⟨c, hc, hcs⟩
    rw [propContrib_typed_leaf _ _ _ k v t ht hleaf] at hc
    injection hc with hc
    apply hsub
    apply hcs
    rw [← hc]
    exact List.mem_singleton_self _
  · intro d props out max_level k v alt0 alts ty hprops hout hkv ht ha hty hmem
    rcases flatten_schema_ok_mem d props max_level out hprops hout with ⟨items, hfp, hsub⟩
    rcases flattenProps_mem _ _ _ props items hfp (k, v) hkv with ⟨c, hc, hcs⟩
    rw [propContrib_untyped_first _ _ _ k v alt0 alts ty ht ha hty hmem] at hc
    injection hc with hc
    apply hsub
    apply hcs
    rw [← hc]
    exact List.mem_singleton_self _

/-- C9 counterexample: an integer-typed leaf at the maximum flattening level
is kept with its original type ['integer'] — not widened to allow null as the
claim states. -/
theorem c9_counterexample :
    flatten_schema (objNode [("a", intNode)]) 0 = .ok [("a", intNode)] ∧
    intNode.type = some (JTy.l ["integer"]) ∧
    JTy.l ["integer"] ≠ JTy.l ["null", "integer"] :=
  ⟨rfl, rfl, by decide⟩

theorem c9_flatten_leaves_witness :
    (flatten_key "a" [] "__", intNode) ∈ [("a", intNode)] ∧
    (flatten_key "x" [] "__",
      setNodeType ⟨some (JTy.s "string"), none, none, none, none⟩ ["null", "string"]) ∈
      [("x", (⟨some (JTy.l ["null", "string"]), none, none, none, none⟩ : SNode))] ∧
    propContrib none "__" [] "e" ⟨none, none, none, none, none⟩ = .ok [] :=
  ⟨c9_flatten_leaves.1 (objNode [("a", intNode)]) [("a", intNode)] [("a", intNode)] 0 "a"
      intNode (JTy.l ["integer"]) rfl rfl (List.mem_cons_self _ _) rfl (Or.inl rfl),
   c9_flatten_leaves.2.1 (objNode [("x", c9AnyOfNode)]) [("x", c9AnyOfNode)]
      [("x", ⟨some (JTy.l ["null", "string"]), none, none, none, none⟩)] 0 "x" c9AnyOfNode
      ⟨some (JTy.s "string"), none, none, none, none⟩ [] "string" rfl rfl
      (List.mem_cons_self _ _) rfl rfl rfl (Or.inl rfl),
   c9_flatten_leaves.2.2 none "__" [] "e" ⟨none, none, none, none, none⟩ rfl rfl⟩

/-! ## C2: flush on schema re-arrival -/

/-- C2 (amended): when a SCHEMA message arrives for a stream with buffered
rows, persist_lines flushes every buffered stream — the call passes no
filter_streams, regardless of flush_all_streams — emits the resulting
checkpoint, and only then binds the fresh sync engine, runs the schema DDL
and resets the stream's counters (the event trace fixes that order). -/
theorem c2_schema_flush (cfg : Config) (s : LoaderState) (stream : String) (sch : SNode)
    (kp : List String) (records2 : StreamsDict) (rc2 : RowCount) (fl' : Option TapState)
    (flat : List (String × SNode))
    (hrc0 : (aget s.row_count stream).getD 0 > 0)
    (hflush : flush_streams s.records_to_load s.row_count cfg s.state s.flushed_state none =
      .ok (records2, rc2, fl'))
    (hpk : ¬((cfg.primary_key_required.getD true) ∧ kp = []))
    (hft : flatten_schema (if cfg.add_metadata_columns || cfg.hard_delete then
      add_metadata_columns_to_schema sch else sch) (cfg.data_flattening_max_level.getD 0) =
      .ok flat) :
    (stepSchema cfg s stream sch kp).2 = none ∧
    (stepSchema cfg s stream sch kp).1.events =
      s.events ++ [.flushedStreams (s.records_to_load.map Prod.fst), .emittedState fl',
        .boundSync stream, .schemaDdl stream, .countersReset stream] ∧
    (stepSchema cfg s stream sch kp).1.emitted = s.emitted ++ emit_state fl' ∧
    (stepSchema cfg s stream sch kp).1.flushed_state = fl' ∧
    (stepSchema cfg s stream sch kp).1.records_to_load = records2 ∧
    (stepSchema cfg s stream sch kp).1.row_count = aset rc2 stream 0 ∧
    (∀ k ∈ s.records_to_load.map Prod.fst, aget records2 k = some [] ∧ aget rc2 k = some 0) := by
  have hspec := flush_streams_ok_spec s.records_to_load s.row_count cfg s.state s.flushed_state
    none records2 rc2 fl' hflush
  have hall : ∀ k ∈ s.records_to_load.map Prod.fst,
      aget records2 k = some [] ∧ aget rc2 k = some 0 := by
    intro k hk
    have hk' : k ∈ streams_to_flush s.records_to_load none := hk
    exact ⟨(hspec.1 k hk').2.2, (hspec.1 k hk').2.1⟩
  have heq : stepSchema cfg s stream sch kp =
      stepSchemaTail cfg
        { s with
            schemas := if stream ∈ s.schemas then s.schemas else s.schemas ++ [stream]
            records_to_load := records2
            row_count := rc2
            flushed_state := fl'
            events := s.events ++ [.flushedStreams (s.records_to_load.map Prod.fst), .emittedState fl']
            emitted := s.emitted ++ emit_state fl' }
        stream sch kp := by
    rw [stepSchema_flush cfg s stream sch kp _ rfl hrc0, hflush]
  rw [heq]
  unfold stepSchemaTail
  rw [if_neg hpk]
  simp only [hft]
  refine ⟨trivial, ?_, trivial, trivial, trivial, trivial, hall⟩
  simp [List.append_assoc]

/-- C2 counterexample: with flush_all_streams disabled, a SCHEMA re-arrival
for stream A while both A and B have one buffered row flushes B as well: B's
buffer is emptied, its counter reset, and the flush event lists both streams
— the claim's "flushes only stream S" is false. -/
theorem c2_counterexample :
    cfgBatch10.flush_all_streams = false ∧
    (runMsgs cfgBatch10 c2Msgs).2 = none ∧
    (runMsgs cfgBatch10 c2Msgs).1.records_to_load = [("A", []), ("B", [])] ∧
    (runMsgs cfgBatch10 c2Msgs).1.row_count = [("A", 0), ("B", 0)] ∧
    Event.flushedStreams ["A", "B"] ∈ (runMsgs cfgBatch10 c2Msgs).1.events ∧
    Event.flushedStreams ["A"] ∉ (runMsgs cfgBatch10 c2Msgs).1.events := by
  refine ⟨rfl, by decide, by decide, by decide, by decide, by decide⟩

theorem c2_schema_flush_witness :
    (stepSchema cfgBatch10 (runMsgs cfgBatch10 (c2Msgs.take 4)).1 "A"
        (objNode [("id", intNode)]) ["id"]).2 = none ∧
    (stepSchema cfgBatch10 (runMsgs cfgBatch10 (c2Msgs.take 4)).1 "A"
        (objNode [("id", intNode)]) ["id"]).1.events =
      (runMsgs cfgBatch10 (c2Msgs.take 4)).1.events ++
        [.flushedStreams ((runMsgs cfgBatch10 (c2Msgs.take 4)).1.records_to_load.map Prod.fst),
          .emittedState none, .boundSync "A", .schemaDdl "A", .countersReset "A"] ∧
    (stepSchema cfgBatch10 (runMsgs cfgBatch10 (c2Msgs.take 4)).1 "A"
        (objNode [("id", intNode)]) ["id"]).1.emitted =
      (runMsgs cfgBatch10 (c2Msgs.take 4)).1.emitted ++ emit_state none ∧
    (stepSchema cfgBatch10 (runMsgs cfgBatch10 (c2Msgs.take 4)).1 "A"
        (objNode [("id", intNode)]) ["id"]).1.flushed_state = none ∧
    (stepSchema cfgBatch10 (runMsgs cfgBatch10 (c2Msgs.take 4)).1 "A"
        (objNode [("id", intNode)]) ["id"]).1.records_to_load = [("A", []), ("B", [])] ∧
    (stepSchema cfgBatch10 (runMsgs cfgBatch10 (c2Msgs.take 4)).1 "A"
        (objNode [("id", intNode)]) ["id"]).1.row_count = aset [("A", 0), ("B", 0)] "A" 0 ∧
    (∀ k ∈ ((runMsgs cfgBatch10 (c2Msgs.take 4)).1.records_to_load.map Prod.fst),
      aget [("A", ([] : Buf)), ("B", ([] : Buf))] k = some [] ∧
        aget [("A", 0), ("B", 0)] k = some 0) :=
  c2_schema_flush cfgBatch10 (runMsgs cfgBatch10 (c2Msgs.take 4)).1 "A"
    (objNode [("id", intNode)]) ["id"] [("A", []), ("B", [])] [("A", 0), ("B", 0)] none
    [("id", intNode)] (by decide) (by decide) (by decide) (by rfl)

/-! ## C3: the row-count invariant -/

theorem WF_init : WF initLoader := by
  refine ⟨?_, ?_⟩
  · intro st buf hb
    cases hb
  · intro st
    rfl

theorem mem_map_fst_of_isSome {β : Type} (l : List (String × β)) (k : String)
    (h : (aget l k).isSome) : k ∈ l.map Prod.fst := by
  by_contra hmem
  rw [← aget_eq_none_iff] at hmem
  rw [hmem] at h
  cases h

/-- A successful flush preserves the buffer/count invariant. -/
theorem WF_flush_result (streams : StreamsDict) (rc : RowCount) (cfg : Config)
    (state fl : Option TapState) (filter : Option (List String))
    (records2 : StreamsDict) (rc2 : RowCount) (fl' : Option TapState)
    (hflush : flush_streams streams rc cfg state fl filter = .ok (records2, rc2, fl'))
    (hnodup : ∀ st buf, aget streams st = some buf → (buf.map Prod.fst).Nodup)
    (hlen : ∀ st, (aget rc st).getD 0 = ((aget streams st).getD []).length) :
    (∀ st buf, aget records2 st = some buf → (buf.map Prod.fst).Nodup) ∧
    (∀ st, (aget rc2 st).getD 0 = ((aget records2 st).getD []).length) := by
  have hspec := flush_streams_ok_spec streams rc cfg state fl filter records2 rc2 fl' hflush
  constructor
  · intro st b hb
    by_cases hst : st ∈ streams_to_flush streams filter
    · rw [(hspec.1 st hst).2.2] at hb
      injection hb with hb
      subst hb
      exact List.nodup_nil
    · rw [(hspec.2 st hst).2] at hb
      exact hnodup st b hb
  · intro st
    by_cases hst : st ∈ streams_to_flush streams filter
    · rw [(hspec.1 st hst).2.1, (hspec.1 st hst).2.2]
      rfl
    · rw [(hspec.2 st hst).1, (hspec.2 st hst).2]
      exact hlen st

/-- Buffering one record preserves the invariant: a fresh key grows the
buffer and the count by one, an existing key replaces the stored record. -/
theorem WF_update (s : LoaderState) (stream pk : String) (payload : Nat)
    (records0 : StreamsDict) (buf : Buf) (rcv : Nat) (total' : RowCount)
    (hw : WF s)
    (hbufget : aget records0 stream = some buf)
    (hagne : ∀ st, st ≠ stream → aget records0 st = aget s.records_to_load st)
    (hnodup : (buf.map Prod.fst).Nodup)
    (hlen : rcv = buf.length)
    (hrc : aget s.row_count stream = some rcv) :
    WF { s with
        records_to_load := aset records0 stream (aset buf pk payload)
        row_count := if (aget buf pk).isNone then aset s.row_count stream (rcv + 1)
          else s.row_count
        total_row_count := total' } := by
  constructor
  · intro st b hb
    simp only at hb
    by_cases hst : st = stream
    · subst hst
      rw [aget_aset_self] at hb
      injection hb with hb
      subst hb
      exact nodup_map_fst_aset buf pk payload hnodup
    · rw [aget_aset_ne _ _ _ _ (fun he => hst he.symm), hagne st hst] at hb
      exact hw.1 st b hb
  · intro st
    simp only [rcD, bufD]
    by_cases hst : st = stream
    · subst hst
      rw [aget_aset_self]
      by_cases hnew : (aget buf pk).isNone
      · rw [if_pos hnew, aget_aset_self]
        have hnone : aget buf pk = none := Option.isNone_iff_eq_none.1 hnew
        rw [Option.getD_some]
        simp only [Option.getD_some]
        rw [length_aset_none buf pk payload hnone]
        omega
      · rw [if_neg hnew, hrc]
        have hsome : (aget buf pk).isSome := by
          cases haget : aget buf pk with
          | none => rw [haget] at hnew; exact absurd rfl hnew
          | some _ => rfl
        simp only [Option.getD_some]
        rw [length_aset_isSome buf pk payload hsome]
        omega
    · have hrne : st ≠ stream := hst
      rw [aget_aset_ne _ _ _ _ (fun he => hst he.symm), hagne st hst]
      by_cases hnew : (aget buf pk).isNone
      · rw [if_pos hnew, aget_aset_ne _ _ _ _ (fun he => hst he.symm)]
        exact hw.2 st
      · rw [if_neg hnew]
        exact hw.2 st

/-- Buffering one record (with or without a triggered flush) preserves the
invariant. -/
theorem stepRecordCore_WF (cfg : Config) (s : LoaderState) (stream pkRaw : String)
    (payload tot rcv : Nat) (hw : WF s)
    (hrc : aget s.row_count stream = some rcv)
    (hok : (stepRecordCore cfg s stream pkRaw payload tot rcv).2 = none) :
    WF (stepRecordCore cfg s stream pkRaw payload tot rcv).1 := by
  set records0 := (if (aget s.records_to_load stream).isSome then s.records_to_load
    else aset s.records_to_load stream []) with hr0
  set pk := (if pkRaw = "" then "RID-" ++ toString tot else pkRaw) with hpk
  set buf := ((aget records0 stream).getD []) with hbuf
  set isNew := ((aget buf pk).isNone) with hnew
  set rcv' := (if isNew then rcv + 1 else rcv) with hrcv2
  have hfacts : aget records0 stream = some buf ∧
      (∀ st, st ≠ stream → aget records0 st = aget s.records_to_load st) ∧
      (buf.map Prod.fst).Nodup ∧ rcv = buf.length := by
    by_cases hrs : (aget s.records_to_load stream).isSome
    · obtain ⟨b, hb⟩ := Option.isSome_iff_exists.mp hrs
      have hr0e : records0 = s.records_to_load := by rw [hr0, if_pos hrs]
      have hbufeq : buf = b := by
        rw [hbuf, hr0e, hb]
        rfl
      refine ⟨?_, ?_, ?_, ?_⟩
      · rw [hr0e, hb, hbufeq]
      · intro st _
        rw [hr0e]
      · rw [hbufeq]
        exact hw.1 stream b hb
      · have h2 := hw.2 stream
        simp only [rcD, bufD] at h2
        rw [hrc, hb] at h2
        simp only [Option.getD_some] at h2
        rw [hbufeq]
        exact h2
    · have hnone : aget s.records_to_load stream = none := Option.not_isSome_iff_eq_none.mp hrs
      have hr0e : records0 = aset s.records_to_load stream [] := by rw [hr0, if_neg hrs]
      have hbufeq : buf = ([] : Buf) := by
        rw [hbuf, hr0e, aget_aset_self]
        rfl
      refine ⟨?_, ?_, ?_, ?_⟩
      · rw [hr0e, aget_aset_self, hbufeq]
      · intro st hne
        rw [hr0e, aget_aset_ne _ _ _ _ (fun he => hne he.symm)]
      · rw [hbufeq]
        exact List.nodup_nil
      · have h2 := hw.2 stream
        simp only [rcD, bufD] at h2
        rw [hrc, hnone] at h2
        simp only [Option.getD_some, Option.getD_none] at h2
        rw [hbufeq]
        exact h2
  obtain ⟨hbufget, hagne, hnodup, hlen⟩ := hfacts
  have hmidWF := WF_update s stream pk payload records0 buf rcv
    (if isNew then aset s.total_row_count stream (tot + 1) else s.total_row_count)
    hw hbufget hagne hnodup hlen hrc
  by_cases htrig : rcv' ≥ cfg.batch_size_rows.getD DEFAULT_BATCH_SIZE_ROWS
  · rw [stepRecordCore_flush cfg s stream pkRaw payload tot rcv pk records0 buf isNew
      _ _ _ rcv' hpk hr0 hbuf hnew rfl rfl rfl hrcv2 htrig] at hok ⊢
    cases hflush : flush_streams (aset records0 stream (aset buf pk payload))
        (if isNew then aset s.row_count stream (rcv + 1) else s.row_count)
        cfg s.state s.flushed_state
        (if cfg.flush_all_streams then none else some [stream]) with
    | error e =>
      rw [hflush] at hok
      exact absurd hok (Option.some_ne_none e)
    | ok res =>
      rcases res with ⟨records2, rc2, fl'⟩
      have hn1 : ∀ st b2, aget (aset records0 stream (aset buf pk payload)) st = some b2 →
          (b2.map Prod.fst).Nodup := hmidWF.1
      have hl1 : ∀ st,
          (aget (if isNew then aset s.row_count stream (rcv + 1) else s.row_count) st).getD 0 =
          ((aget (aset records0 stream (aset buf pk payload)) st).getD []).length :=
        fun st => hmidWF.2 st
      have hres := WF_flush_result (aset records0 stream (aset buf pk payload))
        (if isNew then aset s.row_count stream (rcv + 1) else s.row_count)
        cfg s.state s.flushed_state
        (if cfg.flush_all_streams then none else some [stream])
        records2 rc2 fl' hflush hn1 hl1
      exact ⟨hres.1, hres.2⟩
  · rw [stepRecordCore_nobatch cfg s stream pkRaw payload tot rcv pk records0 buf isNew
      _ _ _ rcv' hpk hr0 hbuf hnew rfl rfl rfl hrcv2 htrig] at hok ⊢
    exact ⟨hmidWF.1, hmidWF.2⟩

/-- The SCHEMA tail preserves the invariant when the stream's buffer is
empty (its only counter change sets the stream's row count to zero). -/
theorem stepSchemaTail_WF (cfg : Config) (s1 : LoaderState) (stream : String) (sch : SNode)
    (key_properties : List String) (hw : WF s1) (hbuf0 : bufD s1 stream = []) :
    WF (stepSchemaTail cfg s1 stream sch key_properties).1 := by
  simp only [stepSchemaTail]
  by_cases hpk : (cfg.primary_key_required.getD true) ∧ key_properties = []
  · rw [if_pos hpk]
    exact hw
  · rw [if_neg hpk]
    cases hft : flatten_schema
        (if cfg.add_metadata_columns || cfg.hard_delete then add_metadata_columns_to_schema sch
          else sch)
        (cfg.data_flattening_max_level.getD 0) with
    | error e => exact hw
    | ok flat =>
      refine ⟨fun st b hb => hw.1 st b hb, ?_⟩
      intro st
      by_cases hst : st = stream
      · subst hst
        show (aget (aset s1.row_count st 0) st).getD 0 =
          ((aget s1.records_to_load st).getD []).length
        have hb0 : (aget s1.records_to_load st).getD [] = ([] : Buf) := hbuf0
        rw [aget_aset_self, hb0]
        rfl
      · show (aget (aset s1.row_count stream 0) st).getD 0 =
          ((aget s1.records_to_load st).getD []).length
        rw [aget_aset_ne _ _ _ _ (fun he => hst he.symm)]
        exact hw.2 st

/-- The SCHEMA branch preserves the invariant. -/
theorem stepSchema_WF (cfg : Config) (s : LoaderState) (stream : String) (sch : SNode)
    (key_properties : List String) (hw : WF s)
    (hok : (stepSchema cfg s stream sch key_properties).2 = none) :
    WF (stepSchema cfg s stream sch key_properties).1 := by
  by_cases hrc0 : (aget s.row_count stream).getD 0 > 0
  · rw [stepSchema_flush cfg s stream sch key_properties _ rfl hrc0] at hok ⊢
    cases hflush : flush_streams s.records_to_load s.row_count cfg s.state s.flushed_state none with
    | error e =>
      rw [hflush] at hok
      exact absurd hok (Option.some_ne_none e)
    | ok res =>
      rcases res with ⟨records2, rc2, fl'⟩
      have hl0 : ∀ st, (aget s.row_count st).getD 0 =
          ((aget s.records_to_load st).getD []).length := fun st => hw.2 st
      have hres := WF_flush_result s.records_to_load s.row_count cfg s.state s.flushed_state none
        records2 rc2 fl' hflush hw.1 hl0
      have hmem : stream ∈ streams_to_flush s.records_to_load none := by
        have hstfeq : streams_to_flush s.records_to_load none =
            s.records_to_load.map Prod.fst := rfl
        rw [hstfeq]
        apply mem_map_fst_of_isSome
        cases haget : aget s.records_to_load stream with
        | some _ => rfl
        | none =>
          exfalso
          have h2 := hw.2 stream
          have hb : bufD s stream = [] := by
            simp only [bufD]
            rw [haget]
            rfl
          have hrcpos : 0 < rcD s stream := hrc0
          rw [h2, hb] at hrcpos
          exact Nat.lt_irrefl 0 hrcpos
      have hspec := flush_streams_ok_spec s.records_to_load s.row_count cfg s.state
        s.flushed_state none records2 rc2 fl' hflush
      have hbuf2 : aget records2 stream = some [] := (hspec.1 stream hmem).2.2
      apply stepSchemaTail_WF
      · exact ⟨hres.1, hres.2⟩
      · show (aget records2 stream).getD [] = []
        rw [hbuf2]
        rfl
  · rw [stepSchema_noflush cfg s stream sch key_properties _ rfl hrc0] at hok ⊢
    apply stepSchemaTail_WF
    · exact ⟨hw.1, hw.2⟩
    · show (aget s.records_to_load stream).getD [] = []
      have h2 := hw.2 stream
      have hz : rcD s stream = 0 := Nat.eq_zero_of_not_pos hrc0
      rw [hz] at h2
      exact (List.length_eq_zero.mp h2.symm : bufD s stream = [])

/-- Every non-raising loop iteration preserves the invariant. -/
theorem step_WF (cfg : Config) (s : LoaderState) (m : Msg) (hw : WF s)
    (hok : (step cfg s m).2 = none) : WF (step cfg s m).1 := by
  cases m with
  | state v => exact ⟨hw.1, hw.2⟩
  | activateVersion => exact hw
  | record stream pkRaw payload =>
    simp only [step] at hok ⊢
    by_cases hsch : stream ∈ s.schemas
    · cases htot : aget s.total_row_count stream with
      | none =>
        unfold stepRecord at hok
        rw [if_neg (not_not_intro hsch), htot] at hok
        simp at hok
      | some tot =>
        cases hrc : aget s.row_count stream with
        | none =>
          unfold stepRecord at hok
          rw [if_neg (not_not_intro hsch), htot, hrc] at hok
          simp at hok
        | some rcv =>
          rw [stepRecord_eq cfg s stream pkRaw payload tot rcv hsch htot hrc] at hok ⊢
          exact stepRecordCore_WF cfg s stream pkRaw payload tot rcv hw hrc hok
    · unfold stepRecord at hok
      rw [if_pos hsch] at hok
      simp at hok
  | schema stream sch key_properties =>
    simp only [step] at hok ⊢
    exact stepSchema_WF cfg s stream sch key_properties hw hok

theorem runMsgs_foldl_WF (cfg : Config) (msgs : List Msg) (acc : LoaderState × Option String)
    (hacc : acc.2 = none → WF acc.1) :
    (msgs.foldl (fun a m => match a.2 with | some _ => a | none => step cfg a.1 m) acc).2 = none →
    WF (msgs.foldl (fun a m => match a.2 with | some _ => a | none => step cfg a.1 m) acc).1 := by
  induction msgs generalizing acc with
  | nil => exact hacc
  | cons m rest ih =>
    simp only [List.foldl_cons]
    apply ih
    cases hacc2 : acc.2 with
    | some e =>
      intro h2
      exact hacc h2
    | none =>
      intro h2
      exact step_WF cfg acc.1 m (hacc hacc2) h2

/-- The invariant holds at every point of a non-raising run. -/
theorem runMsgs_WF (cfg : Config) (msgs : List Msg) (hok : (runMsgs cfg msgs).2 = none) :
    WF (runMsgs cfg msgs).1 :=
  runMsgs_foldl_WF cfg msgs (initLoader, none) (fun _ => WF_init) hok

/-- C3: at every point of a non-raising message loop, each stream's row count
equals the number of distinct primary-key strings buffered for it; a RECORD
whose primary-key string is already buffered overwrites the stored record
without touching the batch or total counters; a RECORD with a fresh key
increments both counters and stores the record; a successful flush empties
every flushed stream's buffer and resets its batch count to zero. -/
theorem c3_row_count_invariant :
    (∀ cfg msgs, (runMsgs cfg msgs).2 = none → ∀ stream,
      rcD (runMsgs cfg msgs).1 stream =
        (((bufD (runMsgs cfg msgs).1 stream).map Prod.fst).dedup).length) ∧
    (∀ cfg s stream pkRaw payload tot rcv pk buf,
      stream ∈ s.schemas →
      aget s.total_row_count stream = some tot →
      aget s.row_count stream = some rcv →
      aget s.records_to_load stream = some buf →
      pk = (if pkRaw = "" then "RID-" ++ toString tot else pkRaw) →
      (aget buf pk).isSome →
      rcv < cfg.batch_size_rows.getD DEFAULT_BATCH_SIZE_ROWS →
      (step cfg s (Msg.record stream pkRaw payload)).2 = none ∧
      (step cfg s (Msg.record stream pkRaw payload)).1.row_count = s.row_count ∧
      (step cfg s (Msg.record stream pkRaw payload)).1.total_row_count = s.total_row_count ∧
      aget (bufD (step cfg s (Msg.record stream pkRaw payload)).1 stream) pk = some payload) ∧
    (∀ cfg s stream pkRaw payload tot rcv pk buf,
      stream ∈ s.schemas →
      aget s.total_row_count stream = some tot →
      aget s.row_count stream = some rcv →
      aget s.records_to_load stream = some buf →
      pk = (if pkRaw = "" then "RID-" ++ toString tot else pkRaw) →
      aget buf pk = none →
      rcv + 1 < cfg.batch_size_rows.getD DEFAULT_BATCH_SIZE_ROWS →
      (step cfg s (Msg.record stream pkRaw payload)).2 = none ∧
      aget (step cfg s (Msg.record stream pkRaw payload)).1.row_count stream = some (rcv + 1) ∧
      aget (step cfg s (Msg.record stream pkRaw payload)).1.total_row_count stream
        = some (tot + 1) ∧
      aget (bufD (step cfg s (Msg.record stream pkRaw payload)).1 stream) pk = some payload) ∧
    (∀ streams rc cfg state fl filter records2 rc2 fl',
      flush_streams streams rc cfg state fl filter = Except.ok (records2, rc2, fl') →
      ∀ k ∈ streams_to_flush streams filter,
        aget records2 k = some [] ∧ aget rc2 k = some 0) := by
  refine ⟨?_, ?_, ?_, ?_⟩
  · intro cfg msgs hok stream
    have hwf := runMsgs_WF cfg msgs hok
    have hnodup : ((bufD (runMsgs cfg msgs).1 stream).map Prod.fst).Nodup := by
      cases hb : aget (runMsgs cfg msgs).1.records_to_load stream with
      | none =>
        simp only [bufD]
        rw [hb]
        exact List.nodup_nil
      | some b =>
        simp only [bufD]
        rw [hb]
        exact hwf.1 stream b hb
    rw [List.dedup_eq_self.mpr hnodup, List.length_map]
    exact hwf.2 stream
  · intro cfg s stream pkRaw payload tot rcv pk buf hsch htot hrc hbufget hpkE hsome hlt
    simp only [step]
    rw [stepRecord_eq cfg s stream pkRaw payload tot rcv hsch htot hrc]
    have hr0 : s.records_to_load =
        (if (aget s.records_to_load stream).isSome then s.records_to_load
          else aset s.records_to_load stream []) := by
      rw [hbufget]
      rfl
    have hbufE : buf = (aget s.records_to_load stream).getD [] := by
      rw [hbufget]
      rfl
    have hnewE : (false : Bool) = (aget buf pk).isNone := by
      cases hg : aget buf pk with
      | none =>
        rw [hg] at hsome
        cases hsome
      | some _ => rfl
    rw [stepRecordCore_nobatch cfg s stream pkRaw payload tot rcv pk s.records_to_load buf false
      s.row_count s.total_row_count (aset s.records_to_load stream (aset buf pk payload)) rcv
      hpkE hr0 hbufE hnewE rfl rfl rfl rfl (not_le.mpr hlt)]
    refine ⟨rfl, rfl, rfl, ?_⟩
    show aget ((aget (aset s.records_to_load stream (aset buf pk payload)) stream).getD []) pk =
      some payload
    rw [aget_aset_self, Option.getD_some]
    exact aget_aset_self buf pk payload
  · intro cfg s stream pkRaw payload tot rcv pk buf hsch htot hrc hbufget hpkE hnone hlt
    simp only [step]
    rw [stepRecord_eq cfg s stream pkRaw payload tot rcv hsch htot hrc]
    have hr0 : s.records_to_load =
        (if (aget s.records_to_load stream).isSome then s.records_to_load
          else aset s.records_to_load stream []) := by
      rw [hbufget]
      rfl
    have hbufE : buf = (aget s.records_to_load stream).getD [] := by
      rw [hbufget]
      rfl
    have hnewE : (true : Bool) = (aget buf pk).isNone := by
      rw [hnone]
      rfl
    rw [stepRecordCore_nobatch cfg s stream pkRaw payload tot rcv pk s.records_to_load buf true
      (aset s.row_count stream (rcv + 1)) (aset s.total_row_count stream (tot + 1))
      (aset s.records_to_load stream (aset buf pk payload)) (rcv + 1)
      hpkE hr0 hbufE hnewE rfl rfl rfl rfl (not_le.mpr hlt)]
    refine ⟨rfl, ?_, ?_, ?_⟩
    · exact aget_aset_self s.row_count stream (rcv + 1)
    · exact aget_aset_self s.total_row_count stream (tot + 1)
    · show aget ((aget (aset s.records_to_load stream (aset buf pk payload)) stream).getD []) pk =
        some payload
      rw [aget_aset_self, Option.getD_some]
      exact aget_aset_self buf pk payload
  · intro streams rc cfg state fl filter records2 rc2 fl' h k hk
    have hspec := flush_streams_ok_spec streams rc cfg state fl filter records2 rc2 fl' h
    exact ⟨(hspec.1 k hk).2.2, (hspec.1 k hk).2.1⟩

theorem c3_row_count_invariant_witness :
    (rcD (runMsgs cfgBatch10 c3Msgs).1 "A" =
      (((bufD (runMsgs cfgBatch10 c3Msgs).1 "A").map Prod.fst).dedup).length) ∧
    ((step cfgBatch10 c3S (Msg.record "A" "k1" 9)).2 = none ∧
      (step cfgBatch10 c3S (Msg.record "A" "k1" 9)).1.row_count = c3S.row_count ∧
      (step cfgBatch10 c3S (Msg.record "A" "k1" 9)).1.total_row_count = c3S.total_row_count ∧
      aget (bufD (step cfgBatch10 c3S (Msg.record "A" "k1" 9)).1 "A") "k1" = some 9) ∧
    ((step cfgBatch10 c3S (Msg.record "A" "k3" 8)).2 = none ∧
      aget (step cfgBatch10 c3S (Msg.record "A" "k3" 8)).1.row_count "A" = some 3 ∧
      aget (step cfgBatch10 c3S (Msg.record "A" "k3" 8)).1.total_row_count "A" = some 3 ∧
      aget (bufD (step cfgBatch10 c3S (Msg.record "A" "k3" 8)).1 "A") "k3" = some 8) ∧
    (∀ k ∈ streams_to_flush [("A", [("k1", 6)])] none,
      aget [("A", ([] : Buf))] k = some [] ∧ aget [("A", 0)] k = some 0) :=
  ⟨c3_row_count_invariant.1 cfgBatch10 c3Msgs (by decide) "A",
   c3_row_count_invariant.2.1 cfgBatch10 c3S "A" "k1" 9 2 2 "k1" [("k1", 6), ("k2", 7)]
     (by decide) (by decide) (by decide) (by decide) (by decide) (by decide) (by decide),
   c3_row_count_invariant.2.2.1 cfgBatch10 c3S "A" "k3" 8 2 2 "k3" [("k1", 6), ("k2", 7)]
     (by decide) (by decide) (by decide) (by decide) (by decide) (by decide) (by decide),
   c3_row_count_invariant.2.2.2 [("A", [("k1", 6)])] [("A", 1)] cfgBatch10 none none none
     [("A", [])] [("A", 0)] none (by decide)⟩
